import Mathlib

/-!
Verification development for the Monday.com Lakeflow connector
(`src/sources/monday/monday.py`).

The connector's core logic -- snapshot/incremental dispatch, page- and
token-based pagination, activity-log driven change data capture, checkpoint
computation with a 60-second lookback window, timestamp conversion and
identifier extraction from loosely typed change-log payloads -- is shallowly
embedded below.  Network calls (`_execute_query` and the helpers built
directly on it: `_discover_board_ids`, `_query_activity_logs`,
`_fetch_boards_by_ids`, `_fetch_items_by_ids`) are external collaborators:
their *results* appear as parameters of the embedded functions, and theorems
quantify over them.  Python exceptions that escape a function are modelled
with `Except Unit`; values that Python would compute are `Except.ok`.

Python strings are compared code point by code point; the embedding uses an
explicit executable comparison `pyCharsLt` mirroring CPython `str.__lt__`.
-/

namespace Monday

/-! ### Python string comparison

CPython compares strings lexicographically by Unicode code point.  The
connector compares ISO-8601 timestamp strings with `>` in
`_get_max_timestamp`, `_read_boards_snapshot`, `_read_items_snapshot`,
`_read_boards_cdc` and `_read_items_cdc`; all of them are embedded on top of
this comparison. -/

/-- Strict lexicographic order on code-point lists, CPython `str` order. -/
def pyCharsLt : List Char → List Char → Bool
  | _, [] => false
  | [], _ :: _ => true
  | a :: as, b :: bs =>
      a.toNat < b.toNat || (a.toNat == b.toNat && pyCharsLt as bs)

/-- Python `a < b` on strings. -/
def pyStrLt (a b : String) : Bool := pyCharsLt a.data b.data

/-- Python `a > b` on strings. -/
def pyStrGt (a b : String) : Bool := pyStrLt b a

/-- Python `a <= b` on strings (total order: `<` or equal). -/
def pyStrLe (a b : String) : Bool := pyStrLt a b || a == b

theorem pyCharsLt_irrefl (a : List Char) : pyCharsLt a a = false := by
  induction a with
  | nil => rfl
  | cons c cs ih => simp [pyCharsLt, ih]

theorem Char.toNat_injective {a b : Char} (h : a.toNat = b.toNat) : a = b := by
  cases a; cases b
  simp only [Char.toNat, UInt32.toNat] at h
  congr 1
  exact UInt32.eq_of_val_eq (Fin.ext h)

theorem pyCharsLt_not_both {a b : List Char} (h1 : pyCharsLt a b = true)
    (h2 : pyCharsLt b a = true) : False := by
  induction a generalizing b with
  | nil => cases b <;> simp [pyCharsLt] at h1 h2
  | cons x xs ih =>
    cases b with
    | nil => simp [pyCharsLt] at h1
    | cons y ys =>
      simp only [pyCharsLt, Bool.or_eq_true, Bool.and_eq_true, beq_iff_eq,
        decide_eq_true_eq] at h1 h2
      rcases h1 with h1 | ⟨e1, h1⟩ <;> rcases h2 with h2 | ⟨e2, h2⟩
      · omega
      · omega
      · omega
      · exact ih h1 h2

theorem pyCharsLt_asymm {a b : List Char} (h : pyCharsLt a b = true) :
    pyCharsLt b a = false := by
  cases h' : pyCharsLt b a with
  | false => rfl
  | true => exact (pyCharsLt_not_both h h').elim

theorem pyCharsLt_total {a b : List Char} (h1 : pyCharsLt a b = false)
    (h2 : pyCharsLt b a = false) : a = b := by
  induction a generalizing b with
  | nil =>
    cases b with
    | nil => rfl
    | cons y ys => simp [pyCharsLt] at h1
  | cons x xs ih =>
    cases b with
    | nil => simp [pyCharsLt] at h2
    | cons y ys =>
      have e : x.toNat = y.toNat := by
        by_contra hne
        rcases Nat.lt_or_ge x.toNat y.toNat with hlt | hge
        · have hx : pyCharsLt (x :: xs) (y :: ys) = true := by
            simp [pyCharsLt, hlt]
          rw [hx] at h1
          simp at h1
        · have hgt : y.toNat < x.toNat := by omega
          have hx : pyCharsLt (y :: ys) (x :: xs) = true := by
            simp [pyCharsLt, hgt]
          rw [hx] at h2
          simp at h2
      have hxy := Char.toNat_injective e
      subst hxy
      have hxs : pyCharsLt xs ys = false := by
        cases hc : pyCharsLt xs ys with
        | false => rfl
        | true =>
          have hx : pyCharsLt (x :: xs) (x :: ys) = true := by
            simp [pyCharsLt, hc]
          rw [hx] at h1
          simp at h1
      have hys : pyCharsLt ys xs = false := by
        cases hc : pyCharsLt ys xs with
        | false => rfl
        | true =>
          have hx : pyCharsLt (x :: ys) (x :: xs) = true := by
            simp [pyCharsLt, hc]
          rw [hx] at h2
          simp at h2
      rw [ih hxs hys]

theorem pyCharsLt_trans {a b c : List Char} (h1 : pyCharsLt a b = true)
    (h2 : pyCharsLt b c = true) : pyCharsLt a c = true := by
  induction a generalizing b c with
  | nil =>
    cases c with
    | nil =>
      cases b with
      | nil => simpa using h1
      | cons y ys => simp [pyCharsLt] at h2
    | cons z zs => rfl
  | cons x xs ih =>
    cases b with
    | nil => simp [pyCharsLt] at h1
    | cons y ys =>
      cases c with
      | nil => simp [pyCharsLt] at h2
      | cons z zs =>
        simp only [pyCharsLt, Bool.or_eq_true, Bool.and_eq_true, beq_iff_eq,
          decide_eq_true_eq] at h1 h2 ⊢
        rcases h1 with h1 | ⟨he1, h1⟩
        · rcases h2 with h2 | ⟨he2, h2⟩
          · exact Or.inl (by omega)
          · exact Or.inl (by omega)
        · rcases h2 with h2 | ⟨he2, h2⟩
          · exact Or.inl (by omega)
          · exact Or.inr ⟨by omega, ih h1 h2⟩

theorem pyStrLt_irrefl (a : String) : pyStrLt a a = false :=
  pyCharsLt_irrefl a.data

theorem pyStrLe_refl (a : String) : pyStrLe a a = true := by
  simp [pyStrLe]

theorem pyStrLt_asymm {a b : String} (h : pyStrLt a b = true) :
    pyStrLt b a = false := pyCharsLt_asymm h

theorem pyStr_eq_of_not_lt {a b : String} (h1 : pyStrLt a b = false)
    (h2 : pyStrLt b a = false) : a = b := by
  have h := @pyCharsLt_total a.data b.data h1 h2
  cases a
  cases b
  exact congrArg String.mk h

theorem pyStrLt_trans {a b c : String} (h1 : pyStrLt a b = true)
    (h2 : pyStrLt b c = true) : pyStrLt a c = true :=
  pyCharsLt_trans h1 h2

theorem pyStrLe_trans {a b c : String} (h1 : pyStrLe a b = true)
    (h2 : pyStrLe b c = true) : pyStrLe a c = true := by
  simp only [pyStrLe, Bool.or_eq_true, beq_iff_eq] at h1 h2 ⊢
  rcases h1 with h1 | rfl
  · rcases h2 with h2 | rfl
    · exact Or.inl (pyStrLt_trans h1 h2)
    · exact Or.inl h1
  · rcases h2 with h2 | rfl
    · exact Or.inl h2
    · exact Or.inr rfl

theorem pyStrLe_of_lt {a b : String} (h : pyStrLt a b = true) :
    pyStrLe a b = true := by simp [pyStrLe, h]

theorem pyStrLe_total (a b : String) :
    pyStrLe a b = true ∨ pyStrLe b a = true := by
  by_cases h : pyStrLt a b = true
  · exact Or.inl (pyStrLe_of_lt h)
  · by_cases h' : pyStrLt b a = true
    · exact Or.inr (pyStrLe_of_lt h')
    · have := pyStr_eq_of_not_lt (by simpa using h) (by simpa using h')
      subst this
      exact Or.inl (pyStrLe_refl a)

/-! ### Proleptic Gregorian calendar model

`datetime` values are modelled as field tuples; `toSecs` maps a tuple to
seconds since 0001-01-01T00:00:00 (the minimum of Python's `datetime`
range).  `datetime - timedelta(seconds=60)` is exact calendar arithmetic in
CPython; subtracting 60 seconds is exactly subtracting one minute. -/

/-- Gregorian leap-year test, as in `calendar.isleap`. -/
def isLeap (y : Nat) : Bool := y % 4 == 0 && (y % 100 != 0 || y % 400 == 0)

/-- Days in month `mo` (1-12) given the leap flag; 0 outside that range. -/
def monthLen (leap : Bool) (mo : Nat) : Nat :=
  match mo with
  | 1 => 31 | 2 => if leap then 29 else 28 | 3 => 31 | 4 => 30
  | 5 => 31 | 6 => 30 | 7 => 31 | 8 => 31 | 9 => 30 | 10 => 31
  | 11 => 30 | 12 => 31 | _ => 0

/-- Days in the year before the first day of month `mo` (1-12). -/
def monthOff (leap : Bool) (mo : Nat) : Nat :=
  match mo with
  | 1 => 0 | 2 => 31 | 3 => if leap then 60 else 59
  | 4 => if leap then 91 else 90 | 5 => if leap then 121 else 120
  | 6 => if leap then 152 else 151 | 7 => if leap then 182 else 181
  | 8 => if leap then 213 else 212 | 9 => if leap then 244 else 243
  | 10 => if leap then 274 else 273 | 11 => if leap then 305 else 304
  | 12 => if leap then 335 else 334 | _ => 0

def daysInMonth (y mo : Nat) : Nat := monthLen (isLeap y) mo

def daysInYear (y : Nat) : Nat := if isLeap y then 366 else 365

/-- Days from 0001-01-01 to the first day of year `y` (y ≥ 1). -/
def daysBeforeYear (y : Nat) : Nat :=
  365 * (y - 1) + ((y - 1) / 4 - (y - 1) / 100) + (y - 1) / 400

/-- A `datetime` field tuple (second resolution; the connector formats are
second-resolution). -/
structure DT where
  y : Nat
  mo : Nat
  d : Nat
  h : Nat
  mi : Nat
  s : Nat
deriving DecidableEq, Repr

/-- The validity invariant enforced by the `datetime` constructor
(`MINYEAR = 1`, `MAXYEAR = 9999`). -/
def DT.Valid (t : DT) : Prop :=
  1 ≤ t.y ∧ t.y ≤ 9999 ∧ 1 ≤ t.mo ∧ t.mo ≤ 12 ∧ 1 ≤ t.d ∧
    t.d ≤ daysInMonth t.y t.mo ∧ t.h ≤ 23 ∧ t.mi ≤ 59 ∧ t.s ≤ 59

instance (t : DT) : Decidable t.Valid := by unfold DT.Valid; infer_instance

/-- Seconds since 0001-01-01T00:00:00. -/
def toSecs (t : DT) : Nat :=
  (daysBeforeYear t.y + monthOff (isLeap t.y) t.mo + (t.d - 1)) * 86400 +
    t.h * 3600 + t.mi * 60 + t.s

/-- Lexicographic order on field tuples. -/
def DT.lexLt (a b : DT) : Prop :=
  a.y < b.y ∨ (a.y = b.y ∧ (a.mo < b.mo ∨ (a.mo = b.mo ∧ (a.d < b.d ∨
    (a.d = b.d ∧ (a.h < b.h ∨ (a.h = b.h ∧ (a.mi < b.mi ∨
      (a.mi = b.mi ∧ a.s < b.s)))))))))

/-- Exact calendar subtraction of one minute (= 60 seconds), the effect of
`dt - timedelta(seconds=60)`; `none` models the `OverflowError` CPython
raises when the result would precede `datetime.min`. -/
def subOneMinute (t : DT) : Option DT :=
  if 1 ≤ t.mi then some { t with mi := t.mi - 1 }
  else if 1 ≤ t.h then some { t with h := t.h - 1, mi := 59 }
  else if 2 ≤ t.d then some { t with d := t.d - 1, h := 23, mi := 59 }
  else if 2 ≤ t.mo then
    some { t with mo := t.mo - 1, d := daysInMonth t.y (t.mo - 1), h := 23,
                  mi := 59 }
  else if 2 ≤ t.y then some ⟨t.y - 1, 12, 31, 23, 59, t.s⟩
  else none

theorem monthOff_succ (leap : Bool) :
    ∀ mo, mo < 12 → 1 ≤ mo →
      monthOff leap (mo + 1) = monthOff leap mo + monthLen leap mo := by
  cases leap <;> decide

theorem monthOff_add_len_le (leap : Bool) :
    ∀ mo, mo < 13 → 1 ≤ mo →
      monthOff leap mo + monthLen leap mo ≤ if leap then 366 else 365 := by
  cases leap <;> decide

theorem monthOff_lt (leap : Bool) :
    ∀ mo1, mo1 < 13 → ∀ mo2, mo2 < 13 → 1 ≤ mo1 → mo1 < mo2 →
      monthOff leap mo1 + monthLen leap mo1 ≤ monthOff leap mo2 := by
  cases leap <;> decide

theorem monthOff_12_len (leap : Bool) :
    monthOff leap 12 + monthLen leap 12 = if leap then 366 else 365 := by
  cases leap <;> decide

theorem monthOff_ge_31 (leap : Bool) :
    ∀ mo, mo < 13 → 2 ≤ mo → 31 ≤ monthOff leap mo := by
  cases leap <;> decide

theorem daysBeforeYear_succ {y : Nat} (h : 1 ≤ y) :
    daysBeforeYear (y + 1) = daysBeforeYear y + daysInYear y := by
  unfold daysBeforeYear daysInYear isLeap
  split_ifs with hl
  · simp only [Bool.and_eq_true, beq_iff_eq, Bool.or_eq_true, bne_iff_ne,
      ne_eq] at hl
    omega
  · simp only [Bool.and_eq_true, beq_iff_eq, Bool.or_eq_true, bne_iff_ne,
      ne_eq, not_and, not_or, not_not] at hl
    omega

theorem daysBeforeYear_mono {a b : Nat} (h : a ≤ b) :
    daysBeforeYear a ≤ daysBeforeYear b := by
  unfold daysBeforeYear
  omega

theorem daysInYear_pos (y : Nat) : 365 ≤ daysInYear y := by
  unfold daysInYear
  split <;> omega

/-- The day count of a valid tuple stays strictly inside its year. -/
theorem day_count_lt_year {t : DT} (ht : t.Valid) :
    daysBeforeYear t.y + monthOff (isLeap t.y) t.mo + (t.d - 1) <
      daysBeforeYear (t.y + 1) := by
  obtain ⟨h1, h2, h3, h4, h5, h6, _, _, _⟩ := ht
  have hb := monthOff_add_len_le (isLeap t.y) t.mo (by omega) h3
  have hy := daysBeforeYear_succ h1
  unfold daysInMonth at h6
  unfold daysInYear at hy
  rcases Bool.eq_false_or_eq_true (isLeap t.y) with hl | hl <;>
    rw [hl] at hb hy h6 ⊢ <;> simp at hb hy <;> omega

/-- `toSecs` is strictly monotone with respect to the field-tuple
lexicographic order on valid tuples. -/
theorem toSecs_lt_of_lex {a b : DT} (ha : a.Valid) (hb : b.Valid)
    (h : a.lexLt b) : toSecs a < toSecs b := by
  have hda := day_count_lt_year ha
  obtain ⟨ha1, ha2, ha3, ha4, ha5, ha6, ha7, ha8, ha9⟩ := ha
  obtain ⟨hb1, hb2, hb3, hb4, hb5, hb6, hb7, hb8, hb9⟩ := hb
  unfold toSecs
  rcases h with h | ⟨hy, h⟩
  · -- year strictly smaller: a is strictly inside year a.y
    have hm := @daysBeforeYear_mono (a.y + 1) b.y (by omega)
    have : daysBeforeYear a.y + monthOff (isLeap a.y) a.mo + (a.d - 1) <
        daysBeforeYear b.y + monthOff (isLeap b.y) b.mo + (b.d - 1) := by
      omega
    omega
  · rw [hy]
    rcases h with h | ⟨hmo, h⟩
    · -- same year, month strictly smaller
      have hlt := monthOff_lt (isLeap b.y) a.mo (by omega) b.mo (by omega)
        ha3 h
      rw [hy] at ha6
      unfold daysInMonth at ha6
      omega
    · rw [hmo]
      rcases h with h | ⟨hd, h⟩
      · omega
      · rw [hd]
        rcases h with h | ⟨hh, h⟩
        · omega
        · rw [hh]
          rcases h with h | ⟨hmi, h⟩
          · omega
          · rw [hmi]
            omega

theorem lexLt_trichotomy (a b : DT) : a.lexLt b ∨ a = b ∨ b.lexLt a := by
  obtain ⟨ay, amo, ad, ah, ami, as⟩ := a
  obtain ⟨by', bmo, bd, bh, bmi, bs⟩ := b
  simp only [DT.lexLt, DT.mk.injEq]
  omega

theorem monthLen_pos (leap : Bool) :
    ∀ mo, mo < 13 → 1 ≤ mo → 28 ≤ monthLen leap mo := by
  cases leap <;> decide

theorem monthLen_le_31 (leap : Bool) :
    ∀ mo, mo < 13 → monthLen leap mo ≤ 31 := by
  cases leap <;> decide

theorem subOneMinute_valid {t u : DT} (ht : t.Valid)
    (he : subOneMinute t = some u) : u.Valid := by
  obtain ⟨y, mo, d, h, mi, s⟩ := t
  obtain ⟨h1, h2, h3, h4, h5, h6, h7, h8, h9⟩ := ht
  simp only at h1 h2 h3 h4 h5 h6 h7 h8 h9
  unfold subOneMinute at he
  simp only at he
  split_ifs at he with c1 c2 c3 c4 c5 <;> cases he
  · exact ⟨h1, h2, h3, h4, h5, h6, h7, by simp; omega, h9⟩
  · exact ⟨h1, h2, h3, h4, h5, h6, by simp; omega, by simp, h9⟩
  · exact ⟨h1, h2, h3, h4, by simp; omega, by simp; omega, by simp,
      by simp, h9⟩
  · refine ⟨h1, h2, by simp; omega, by simp; omega, ?_, by simp, by simp,
      by simp, h9⟩
    simp only [daysInMonth]
    have := monthLen_pos (isLeap y) (mo - 1) (by omega) (by omega)
    omega
  · refine ⟨by simp; omega, by simp; omega, by simp, by simp, by simp, ?_,
      by simp, by simp, h9⟩
    simp [daysInMonth, monthLen]

theorem monthOff_one (leap : Bool) : monthOff leap 1 = 0 := by
  cases leap <;> rfl

theorem monthOff_12_31 (leap : Bool) (y : Nat) (h : isLeap y = leap) :
    monthOff leap 12 + 31 = daysInYear y := by
  have h12 := monthOff_12_len leap
  unfold daysInYear
  rw [h]
  rcases Bool.eq_false_or_eq_true leap with hl | hl <;> subst hl <;>
    simp only [monthLen] at h12 <;> simp_all

theorem subOneMinute_toSecs {t u : DT} (ht : t.Valid)
    (he : subOneMinute t = some u) : toSecs u + 60 = toSecs t := by
  obtain ⟨y, mo, d, h, mi, s⟩ := t
  obtain ⟨h1, h2, h3, h4, h5, h6, h7, h8, h9⟩ := ht
  simp only [daysInMonth] at h6
  simp only at h1 h2 h3 h4 h5 h6 h7 h8 h9
  unfold subOneMinute at he
  simp only at he
  split_ifs at he with c1 c2 c3 c4 c5 <;> cases he
  · simp only [toSecs]
    omega
  · simp only [toSecs]
    omega
  · simp only [toSecs]
    omega
  · -- borrow from the month: the last day of month mo-1 has the day count
    -- of day 0 of month mo
    simp only at c1 c2 c3 c4
    have hd : d = 1 := by omega
    have hh : h = 0 := by omega
    have hmi : mi = 0 := by omega
    subst hd
    subst hh
    subst hmi
    have hs := monthOff_succ (isLeap y) (mo - 1) (by omega) (by omega)
    have hm1 : mo - 1 + 1 = mo := by omega
    rw [hm1] at hs
    have hp := monthLen_pos (isLeap y) (mo - 1) (by omega) (by omega)
    simp only [toSecs, daysInMonth]
    omega
  · -- borrow from the year
    simp only at c1 c2 c3 c4 c5
    have hmo : mo = 1 := by omega
    have hd : d = 1 := by omega
    have hh : h = 0 := by omega
    have hmi : mi = 0 := by omega
    subst hmo
    subst hd
    subst hh
    subst hmi
    have hy : daysBeforeYear (y - 1 + 1) =
        daysBeforeYear (y - 1) + daysInYear (y - 1) :=
      daysBeforeYear_succ (by omega)
    have hy1 : y - 1 + 1 = y := by omega
    rw [hy1] at hy
    have h12 := monthOff_12_31 (isLeap (y - 1)) (y - 1) rfl
    simp only [toSecs, monthOff_one]
    omega

theorem subOneMinute_none_iff {t : DT} (ht : t.Valid) :
    subOneMinute t = none ↔ toSecs t < 60 := by
  obtain ⟨y, mo, d, h, mi, s⟩ := t
  obtain ⟨h1, h2, h3, h4, h5, h6, h7, h8, h9⟩ := ht
  simp only [daysInMonth] at h6
  simp only at h1 h2 h3 h4 h5 h6 h7 h8 h9
  constructor
  · intro he
    unfold subOneMinute at he
    simp only at he
    split_ifs at he with c1 c2 c3 c4 c5
    simp only at c1 c2 c3 c4 c5
    have hy : y = 1 := by omega
    have hmo : mo = 1 := by omega
    have hd : d = 1 := by omega
    have hh : h = 0 := by omega
    have hmi : mi = 0 := by omega
    subst hy
    subst hmo
    subst hd
    subst hh
    subst hmi
    simp only [toSecs, daysBeforeYear, monthOff]
    omega
  · intro hs
    have hdy : 2 ≤ y → 365 ≤ daysBeforeYear y := by
      intro hy2
      unfold daysBeforeYear
      omega
    have hmo31 : 2 ≤ mo → 31 ≤ monthOff (isLeap y) mo := fun hm =>
      monthOff_ge_31 (isLeap y) mo (by omega) hm
    unfold toSecs at hs
    simp only at hs
    unfold subOneMinute
    simp only
    split_ifs with c1 c2 c3 c4 c5
    · simp only at c1
      omega
    · simp only at c2
      omega
    · simp only at c3
      omega
    · simp only at c4
      have := hmo31 c4
      omega
    · simp only at c5
      have := hdy c5
      omega
    · rfl

/-! ### Fixed-width timestamp formatting

`strftime("%Y-%m-%dT%H:%M:%SZ")` output.  Fields are zero padded; CPython
delegates `%Y` to the platform strftime, whose zero padding of years below
1000 is platform dependent; the model zero-pads to four digits.  All
concrete inputs used by the theorems below have years at or above 1000. -/

/-- ASCII digit character for `k % 10`. -/
def digitChar (k : Nat) : Char := Char.ofNat (48 + k % 10)

/-- Two-digit zero-padded rendering of `n % 100`. -/
def pad2 (n : Nat) : List Char := [digitChar (n / 10), digitChar n]

/-- Four-digit zero-padded rendering of `n % 10000`. -/
def pad4 (n : Nat) : List Char := pad2 (n / 100) ++ pad2 n

def formatChars (t : DT) : List Char :=
  pad4 t.y ++ '-' :: (pad2 t.mo ++ '-' :: (pad2 t.d ++
    'T' :: (pad2 t.h ++ ':' :: (pad2 t.mi ++ ':' :: (pad2 t.s ++ ['Z'])))))

/-- The `%Y-%m-%dT%H:%M:%SZ` rendering of a datetime tuple. -/
def formatDT (t : DT) : String := String.mk (formatChars t)

theorem pyCharsLt_append_left {xs ys : List Char}
    (h : xs.length = ys.length) (hlt : pyCharsLt xs ys = true)
    (u v : List Char) : pyCharsLt (xs ++ u) (ys ++ v) = true := by
  induction xs generalizing ys with
  | nil =>
    cases ys with
    | nil => simp [pyCharsLt] at hlt
    | cons y ys => simp at h
  | cons x xs ih =>
    cases ys with
    | nil => simp at h
    | cons y ys =>
      simp only [List.cons_append, pyCharsLt, Bool.or_eq_true,
        Bool.and_eq_true, beq_iff_eq, decide_eq_true_eq] at hlt ⊢
      rcases hlt with h1 | ⟨he, h1⟩
      · exact Or.inl h1
      · exact Or.inr ⟨he, ih (by simpa using h) h1⟩

theorem pyCharsLt_cons_same (c : Char) (u v : List Char) :
    pyCharsLt (c :: u) (c :: v) = pyCharsLt u v := by
  simp [pyCharsLt]

theorem pyCharsLt_append_same (xs u v : List Char) :
    pyCharsLt (xs ++ u) (xs ++ v) = pyCharsLt u v := by
  induction xs with
  | nil => rfl
  | cons x xs ih =>
    rw [List.cons_append, List.cons_append, pyCharsLt_cons_same]
    exact ih

theorem pad2_mod (n : Nat) : pad2 n = pad2 (n % 100) := by
  unfold pad2 digitChar
  have e1 : n / 10 % 10 = n % 100 / 10 % 10 := by omega
  have e2 : n % 10 = n % 100 % 10 := by omega
  rw [e1, e2]

set_option maxRecDepth 4000 in
theorem pad2_lt_bounded :
    ∀ a, a < 100 → ∀ b, b < 100 → a < b →
      pyCharsLt (pad2 a) (pad2 b) = true := by decide

theorem pad2_lt {a b : Nat} (h : a % 100 < b % 100) :
    pyCharsLt (pad2 a) (pad2 b) = true := by
  rw [pad2_mod a, pad2_mod b]
  exact pad2_lt_bounded (a % 100) (by omega) (b % 100) (by omega) h

theorem pad2_length (n : Nat) : (pad2 n).length = 2 := rfl

theorem pad4_length (n : Nat) : (pad4 n).length = 4 := rfl

theorem pad4_lt {a b : Nat} (ha : a < 10000) (hb : b < 10000) (h : a < b) :
    pyCharsLt (pad4 a) (pad4 b) = true := by
  unfold pad4
  rcases Nat.lt_or_ge (a / 100) (b / 100) with hc | hc
  · exact pyCharsLt_append_left (by simp [pad2_length])
      (pad2_lt (by omega)) _ _
  · have he : a / 100 = b / 100 := by omega
    rw [he, pyCharsLt_append_same]
    exact pad2_lt (by omega)

/-- Tuple-lexicographic order transports to code-point order of the
fixed-width renderings. -/
theorem formatChars_lt_of_lex {a b : DT} (ha : a.Valid) (hb : b.Valid)
    (h : a.lexLt b) : pyCharsLt (formatChars a) (formatChars b) = true := by
  obtain ⟨ay, amo, ad, ah, ami, as⟩ := a
  obtain ⟨by', bmo, bd, bh, bmi, bs⟩ := b
  obtain ⟨ha1, ha2, ha3, ha4, ha5, ha6, ha7, ha8, ha9⟩ := ha
  obtain ⟨hb1, hb2, hb3, hb4, hb5, hb6, hb7, hb8, hb9⟩ := hb
  simp only at ha1 ha2 ha3 ha4 ha5 ha6 ha7 ha8 ha9
  simp only at hb1 hb2 hb3 hb4 hb5 hb6 hb7 hb8 hb9
  simp only [daysInMonth] at ha6 hb6
  have hma := monthLen_le_31 (isLeap ay) amo (by omega)
  have hmb := monthLen_le_31 (isLeap by') bmo (by omega)
  simp only [DT.lexLt] at h
  unfold formatChars
  simp only
  rcases h with hy | ⟨ey, h⟩
  · exact pyCharsLt_append_left (by simp [pad4_length])
      (pad4_lt (by omega) (by omega) hy) _ _
  · subst ey
    rw [pyCharsLt_append_same, pyCharsLt_cons_same]
    rcases h with hmo | ⟨emo, h⟩
    · exact pyCharsLt_append_left (by simp [pad2_length])
        (pad2_lt (by omega)) _ _
    · subst emo
      rw [pyCharsLt_append_same, pyCharsLt_cons_same]
      rcases h with hd | ⟨ed, h⟩
      · exact pyCharsLt_append_left (by simp [pad2_length])
          (pad2_lt (by omega)) _ _
      · subst ed
        rw [pyCharsLt_append_same, pyCharsLt_cons_same]
        rcases h with hh | ⟨eh, h⟩
        · exact pyCharsLt_append_left (by simp [pad2_length])
            (pad2_lt (by omega)) _ _
        · subst eh
          rw [pyCharsLt_append_same, pyCharsLt_cons_same]
          rcases h with hmi | ⟨emi, h⟩
          · exact pyCharsLt_append_left (by simp [pad2_length])
              (pad2_lt (by omega)) _ _
          · subst emi
            rw [pyCharsLt_append_same, pyCharsLt_cons_same]
            exact pyCharsLt_append_left (by simp [pad2_length])
              (pad2_lt (by omega)) _ _

theorem toSecs_inj {a b : DT} (ha : a.Valid) (hb : b.Valid)
    (h : toSecs a = toSecs b) : a = b := by
  rcases lexLt_trichotomy a b with hl | he | hl
  · have := toSecs_lt_of_lex ha hb hl
    omega
  · exact he
  · have := toSecs_lt_of_lex hb ha hl
    omega

/-- Code-point order of canonical renderings coincides with chronological
order. -/
theorem formatDT_lt_iff {a b : DT} (ha : a.Valid) (hb : b.Valid) :
    pyStrLt (formatDT a) (formatDT b) = true ↔ toSecs a < toSecs b := by
  constructor
  · intro h
    rcases lexLt_trichotomy a b with hl | he | hl
    · exact toSecs_lt_of_lex ha hb hl
    · subst he
      rw [pyStrLt_irrefl] at h
      cases h
    · have hba := formatChars_lt_of_lex hb ha hl
      exact (pyCharsLt_not_both h hba).elim
  · intro h
    rcases lexLt_trichotomy a b with hl | he | hl
    · exact formatChars_lt_of_lex ha hb hl
    · subst he
      omega
    · have := toSecs_lt_of_lex hb ha hl
      omega

theorem formatDT_le_iff {a b : DT} (ha : a.Valid) (hb : b.Valid) :
    pyStrLe (formatDT a) (formatDT b) = true ↔ toSecs a ≤ toSecs b := by
  unfold pyStrLe
  constructor
  · intro h
    simp only [Bool.or_eq_true, beq_iff_eq] at h
    rcases h with h | h
    · have := (formatDT_lt_iff ha hb).mp h
      omega
    · by_contra hc
      have hba : toSecs b < toSecs a := by omega
      have := (formatDT_lt_iff hb ha).mpr hba
      rw [h, pyStrLt_irrefl] at this
      cases this
  · intro h
    simp only [Bool.or_eq_true, beq_iff_eq]
    rcases Nat.lt_or_ge (toSecs a) (toSecs b) with hlt | hge
    · exact Or.inl ((formatDT_lt_iff ha hb).mpr hlt)
    · have he : toSecs a = toSecs b := by omega
      exact Or.inr (by rw [toSecs_inj ha hb he])

/-! ### `datetime.strptime(s, "%Y-%m-%dT%H:%M:%SZ")`

CPython compiles the format to a regex (`_strptime.TimeRE`, compiled with
IGNORECASE, which affects the literals `T` and `Z`):
`%Y` is exactly four `\d`; `%m` is `1[0-2]|0[1-9]|[1-9]`;
`%d` is `3[01]|[12]\d|0[1-9]|[1-9]`; `%H` is `2[0-3]|[0-1]\d|\d`;
`%M` is `[0-5]\d|\d`; `%S` is `6[0-1]|[0-5]\d|\d`; the whole input must be
consumed ("unconverted data remains" otherwise).  The matched fields are
then passed to the `datetime` constructor, which validates ranges; a
constructor failure raises `ValueError` without re-entering the regex.
Both failures surface as `ValueError`.  The model is scoped to ASCII
digits (Python's `\d` also accepts other Unicode decimal digits). -/

/-- Numeric value of an ASCII digit character. -/
def dval (c : Char) : Option Nat :=
  if c.isDigit then some (c.toNat - 48) else none

/-- Try a two-digit match (regex alternatives with distinct first digits
collapse into a value-range test), then a one-digit match, each running the
continuation, backtracking like the regex engine. -/
def fieldTwoOne {α : Type} (ok2 ok1 : Nat → Bool)
    (k : Nat → List Char → Option α) (cs : List Char) : Option α :=
  (match cs with
   | a :: b :: rest =>
     match dval a, dval b with
     | some x, some y =>
       if ok2 (10 * x + y) then k (10 * x + y) rest else none
     | _, _ => none
   | _ => none) <|>
  (match cs with
   | a :: rest =>
     match dval a with
     | some x => if ok1 x then k x rest else none
     | none => none
   | _ => none)

/-- Literal character. -/
def litch {α : Type} (c : Char) (k : List Char → Option α)
    (cs : List Char) : Option α :=
  match cs with
  | a :: rest => if a == c then k rest else none
  | [] => none

/-- Case-insensitive literal (for `T` and `Z` under IGNORECASE). -/
def litTZ {α : Type} (up lo : Char) (k : List Char → Option α)
    (cs : List Char) : Option α :=
  match cs with
  | a :: rest => if a == up || a == lo then k rest else none
  | [] => none

/-- Exactly four digits (`%Y`). -/
def fourDigits {α : Type} (k : Nat → List Char → Option α)
    (cs : List Char) : Option α :=
  match cs with
  | a :: b :: c :: d :: rest =>
    match dval a, dval b, dval c, dval d with
    | some w, some x, some y, some z =>
      k (1000 * w + 100 * x + 10 * y + z) rest
    | _, _, _, _ => none
  | _ => none

/-- The regex phase: raw matched fields, or `none` on match failure. -/
def strptimeFields (cs : List Char) :
    Option (Nat × Nat × Nat × Nat × Nat × Nat) :=
  let sec (y mo d h mi : Nat) :
      List Char → Option (Nat × Nat × Nat × Nat × Nat × Nat) :=
    fieldTwoOne (fun v => decide (v ≤ 61)) (fun v => decide (v ≤ 9))
      (fun s => litTZ 'Z' 'z' (fun rest =>
        match rest with
        | [] => some (y, mo, d, h, mi, s)
        | _ :: _ => none))
  let minu (y mo d h : Nat) :
      List Char → Option (Nat × Nat × Nat × Nat × Nat × Nat) :=
    fieldTwoOne (fun v => decide (v ≤ 59)) (fun v => decide (v ≤ 9))
      (fun mi => litch ':' (sec y mo d h mi))
  let hour (y mo d : Nat) :
      List Char → Option (Nat × Nat × Nat × Nat × Nat × Nat) :=
    fieldTwoOne (fun v => decide (v ≤ 23)) (fun v => decide (v ≤ 9))
      (fun h => litch ':' (minu y mo d h))
  let day (y mo : Nat) :
      List Char → Option (Nat × Nat × Nat × Nat × Nat × Nat) :=
    fieldTwoOne (fun v => decide (1 ≤ v ∧ v ≤ 31))
      (fun v => decide (1 ≤ v ∧ v ≤ 9))
      (fun d => litTZ 'T' 't' (hour y mo d))
  let mon (y : Nat) :
      List Char → Option (Nat × Nat × Nat × Nat × Nat × Nat) :=
    fieldTwoOne (fun v => decide (1 ≤ v ∧ v ≤ 12))
      (fun v => decide (1 ≤ v ∧ v ≤ 9))
      (fun mo => litch '-' (day y mo))
  fourDigits (fun y => litch '-' (mon y)) cs

/-- The `datetime` constructor: field validation, `ValueError` on failure
(`MINYEAR = 1`, `MAXYEAR = 9999`). -/
def mkDT (y mo d h mi s : Nat) : Option DT :=
  if (DT.mk y mo d h mi s).Valid then some (DT.mk y mo d h mi s) else none

/-- `datetime.strptime(s, "%Y-%m-%dT%H:%M:%SZ")`; `none` models the
`ValueError` raised on a regex mismatch or constructor failure. -/
def pyStrptime (s : String) : Option DT :=
  (strptimeFields s.data).bind fun f =>
    mkDT f.1 f.2.1 f.2.2.1 f.2.2.2.1 f.2.2.2.2.1 f.2.2.2.2.2

theorem mkDT_valid {y mo d h mi s : Nat} {t : DT}
    (h : mkDT y mo d h mi s = some t) : t.Valid := by
  unfold mkDT at h
  split_ifs at h with hv
  cases h
  exact hv

theorem pyStrptime_valid {s : String} {t : DT}
    (h : pyStrptime s = some t) : t.Valid := by
  unfold pyStrptime at h
  rw [Option.bind_eq_some] at h
  obtain ⟨f, hf, hm⟩ := h
  exact mkDT_valid hm

/-- A string is a canonical timestamp when it parses and reformats to
itself. -/
def isCanonTs (s : String) : Bool :=
  match pyStrptime s with
  | some t => formatDT t == s
  | none => false

theorem isCanonTs_elim {s : String} (h : isCanonTs s = true) :
    ∃ t, t.Valid ∧ pyStrptime s = some t ∧ formatDT t = s := by
  unfold isCanonTs at h
  rcases hp : pyStrptime s with _ | t
  · rw [hp] at h
    cases h
  · rw [hp] at h
    exact ⟨t, pyStrptime_valid hp, rfl, by simpa using h⟩

/-! ### `_apply_lookback` (monday.py lines 1164-1171)

Parses with `strptime`, subtracts `timedelta(seconds=60)`, reformats with
`strftime`.  `ValueError`/`TypeError` (parse failures) are caught and the
input is returned unchanged; the `OverflowError` raised by the subtraction
when the result would precede `datetime.min` is NOT caught and escapes. -/

def apply_lookback (timestamp : String) : Except Unit String :=
  match pyStrptime timestamp with
  | none => Except.ok timestamp
  | some dt =>
    match subOneMinute dt with
    | some dt2 => Except.ok (formatDT dt2)
    | none => Except.error ()

theorem apply_lookback_parsed {s : String} {t : DT}
    (hp : pyStrptime s = some t) :
    apply_lookback s = match subOneMinute t with
      | some t2 => Except.ok (formatDT t2)
      | none => Except.error () := by
  unfold apply_lookback
  rw [hp]

theorem apply_lookback_canon {s u : String} (h : isCanonTs s = true)
    (e : apply_lookback s = Except.ok u) :
    ∃ t t2, t.Valid ∧ t2.Valid ∧ pyStrptime s = some t ∧ formatDT t = s ∧
      u = formatDT t2 ∧ toSecs t2 + 60 = toSecs t := by
  obtain ⟨t, hv, hp, hf⟩ := isCanonTs_elim h
  rw [apply_lookback_parsed hp] at e
  rcases hs : subOneMinute t with _ | t2
  · rw [hs] at e
    cases e
  · rw [hs] at e
    cases e
    exact ⟨t, t2, hv, subOneMinute_valid hv hs, hp, hf, rfl,
      subOneMinute_toSecs hv hs⟩

/-- Monotonicity of the lookback on canonical timestamps. -/
theorem apply_lookback_mono {s1 s2 u1 u2 : String}
    (h1 : isCanonTs s1 = true) (h2 : isCanonTs s2 = true)
    (hle : pyStrLe s1 s2 = true) (e1 : apply_lookback s1 = Except.ok u1)
    (e2 : apply_lookback s2 = Except.ok u2) : pyStrLe u1 u2 = true := by
  obtain ⟨t1, t1', hv1, hv1', hp1, hf1, hu1, hd1⟩ := apply_lookback_canon
    h1 e1
  obtain ⟨t2, t2', hv2, hv2', hp2, hf2, hu2, hd2⟩ := apply_lookback_canon
    h2 e2
  rw [← hf1, ← hf2] at hle
  have hsec := (formatDT_le_iff hv1 hv2).mp hle
  rw [hu1, hu2]
  exact (formatDT_le_iff hv1' hv2').mpr (by omega)

/-- The lookback moves a canonical timestamp strictly backwards. -/
theorem apply_lookback_le_self {s u : String} (h : isCanonTs s = true)
    (e : apply_lookback s = Except.ok u) : pyStrLe u s = true := by
  obtain ⟨t, t2, hv, hv2, hp, hf, hu, hd⟩ := apply_lookback_canon h e
  rw [hu, ← hf]
  exact (formatDT_le_iff hv2 hv).mpr (by omega)

/-! ### Python/JSON value model

Change-log `data` payloads are loosely typed JSON values.  `PyVal` models
the values `json` deserialization can produce, restricted to integer
numerals (float literals, string escape sequences and non-ASCII numerals
are outside the model: `json_loads` rejects them, and no theorem below
quantifies over inputs containing them). -/

inductive PyVal where
  | null
  | bool (b : Bool)
  | int (n : Int)
  | str (s : String)
  | arr (xs : List PyVal)
  | obj (kvs : List (String × PyVal))
deriving Repr

mutual

def pyValBEq : PyVal → PyVal → Bool
  | .null, .null => true
  | .bool a, .bool b => a == b
  | .int a, .int b => a == b
  | .str a, .str b => a == b
  | .arr a, .arr b => pyValListBEq a b
  | .obj a, .obj b => pyValObjBEq a b
  | _, _ => false

def pyValListBEq : List PyVal → List PyVal → Bool
  | [], [] => true
  | a :: as, b :: bs => pyValBEq a b && pyValListBEq as bs
  | _, _ => false

def pyValObjBEq : List (String × PyVal) → List (String × PyVal) → Bool
  | [], [] => true
  | a :: as, b :: bs => a.1 == b.1 && pyValBEq a.2 b.2 && pyValObjBEq as bs
  | _, _ => false

end

instance : BEq PyVal := ⟨pyValBEq⟩

/-- Contiguous-prefix test on character lists. -/
def startsWithChars : List Char → List Char → Bool
  | [], _ => true
  | _ :: _, [] => false
  | a :: as, b :: bs => a == b && startsWithChars as bs

/-- Substring occurrence, Python `needle in hay` on strings. -/
def occursIn (needle : List Char) : List Char → Bool
  | [] => needle.isEmpty
  | c :: rest => startsWithChars needle (c :: rest) || occursIn needle rest

/-- Python truthiness (`if not x`). -/
def pyTruthy : PyVal → Bool
  | .null => false
  | .bool b => b
  | .int n => n != 0
  | .str s => !s.isEmpty
  | .arr xs => !xs.isEmpty
  | .obj kvs => !kvs.isEmpty

mutual

/-- Python `repr`, used by `str()` on containers.  String quoting is the
single-quote form (no claim exercises strings containing quotes). -/
def pyRepr : PyVal → String
  | .null => "None"
  | .bool true => "True"
  | .bool false => "False"
  | .int n => toString n
  | .str s => "'" ++ s ++ "'"
  | .arr xs => "[" ++ pyReprList xs ++ "]"
  | .obj kvs => "\x7b" ++ pyReprObj kvs ++ "\x7d"

def pyReprList : List PyVal → String
  | [] => ""
  | [x] => pyRepr x
  | x :: y :: xs => pyRepr x ++ ", " ++ pyReprList (y :: xs)

def pyReprObj : List (String × PyVal) → String
  | [] => ""
  | [kv] => "'" ++ kv.1 ++ "': " ++ pyRepr kv.2
  | kv :: kv2 :: kvs =>
      "'" ++ kv.1 ++ "': " ++ pyRepr kv.2 ++ ", " ++ pyReprObj (kv2 :: kvs)

end

/-- Python `str()`. -/
def pyStr : PyVal → String
  | .str s => s
  | v => pyRepr v

/-- Python `key in v` for a string key; `.error` models the uncaught-shape
`TypeError` (`in` applied to a non-container). -/
def pyContains (v : PyVal) (key : String) : Except Unit Bool :=
  match v with
  | .obj kvs => .ok (kvs.any (fun kv => kv.1 == key))
  | .arr xs => .ok (xs.any (fun x => x == PyVal.str key))
  | .str s => .ok (occursIn key.data s.data)
  | _ => .error ()

/-- Python `v[key]` for a string key; `.error` models `TypeError` (string
or list indexed by a string) and the unreachable `KeyError` (the source
always guards `v[key]` with `key in v`). -/
def pyGetItem (v : PyVal) (key : String) : Except Unit PyVal :=
  match v with
  | .obj kvs =>
    match (kvs.filter (fun kv => kv.1 == key)).getLast? with
    | some kv => .ok kv.2
    | none => .error ()
  | _ => .error ()

/-! ### Python `int(string)` (ASCII fragment) -/

def isPySpace (c : Char) : Bool :=
  c == ' ' || c == '\t' || c == '\n' || c == '\r' || c == '\x0b' ||
    c == '\x0c'

def digitsUndGo : List Char → Nat → Option Nat
  | [], acc => some acc
  | '_' :: rest, acc =>
    match rest with
    | d :: _ => if d.isDigit then digitsUndGo rest acc else none
    | [] => none
  | c :: rest, acc =>
    if c.isDigit then digitsUndGo rest (acc * 10 + (c.toNat - 48))
    else none

/-- Decimal digit run with single underscores between digits. -/
def digitsUnd (cs : List Char) : Option Nat :=
  match cs with
  | c :: _ => if c.isDigit then digitsUndGo cs 0 else none
  | [] => none

/-- Python `int(s)` for a string: optional surrounding whitespace, optional
sign, decimal digits with optional single underscores.  `none` models
`ValueError`. -/
def pyInt (s : String) : Option Int :=
  let cs := ((s.data.dropWhile isPySpace).reverse.dropWhile
    isPySpace).reverse
  match cs with
  | [] => none
  | c :: rest =>
    if c = '-' then (digitsUnd rest).map (fun n => -(n : Int))
    else if c = '+' then (digitsUnd rest).map (fun n => (n : Int))
    else (digitsUnd cs).map (fun n => (n : Int))

/-- `_to_long` (monday.py lines 1136-1144): `int(value)` degraded to
`None` on `ValueError`/`TypeError`. -/
def to_long : PyVal → Option Int
  | .null => none
  | .int n => some n
  | .bool true => some 1
  | .bool false => some 0
  | .str s => pyInt s
  | .arr _ => none
  | .obj _ => none

/-! ### `json.loads` on the modelled fragment

Strict JSON: objects, arrays, plain strings (no escape sequences), integer
numerals (no floats), `true`/`false`/`null`, whitespace limited to space,
tab, newline, carriage return.  Duplicate object keys keep the last value
at the first key's position, as Python dicts do.  `none` models
`json.JSONDecodeError`. -/

def jsonWs (cs : List Char) : List Char :=
  cs.dropWhile (fun c => c == ' ' || c == '\t' || c == '\n' || c == '\r')

/-- JSON string body after the opening quote; rejects escapes and raw
control characters (Python's strict mode also rejects the latter). -/
def jsonStringBody : List Char → Option (String × List Char)
  | [] => none
  | c :: rest =>
    if c == '"' then some ("", rest)
    else if c == '\\' || c.toNat < 32 then none
    else (jsonStringBody rest).map
      (fun p => (String.mk (c :: p.1.data), p.2))

/-- Integer numeral: optional minus, `0` or a nonzero-led digit run; a
following `.`, `e` or `E` would start a float, which is not modelled. -/
def jsonIntTail : List Char → Option (Nat × List Char)
  | [] => none
  | c :: rest =>
    if c == '0' then
      match rest with
      | d :: _ =>
        if d.isDigit || d == '.' || d == 'e' || d == 'E' then none
        else some (0, rest)
      | [] => some (0, rest)
    else if c.isDigit then
      let run := (c :: rest).takeWhile Char.isDigit
      let rem := (c :: rest).dropWhile Char.isDigit
      match rem with
      | d :: _ =>
        if d == '.' || d == 'e' || d == 'E' then none
        else some (run.foldl (fun a ch => a * 10 + (ch.toNat - 48)) 0, rem)
      | [] => some (run.foldl (fun a ch => a * 10 + (ch.toNat - 48)) 0, rem)
    else none

/-- Dict write: update in place if present, else append (Python dict
semantics). -/
def objInsert (kvs : List (String × PyVal)) (k : String) (v : PyVal) :
    List (String × PyVal) :=
  if kvs.any (fun kv => kv.1 == k) then
    kvs.map (fun kv => if kv.1 == k then (k, v) else kv)
  else kvs ++ [(k, v)]

def jsonRBrace : Char := Char.ofNat 125

def jsonLBrace : Char := Char.ofNat 123

mutual

def jsonValue : Nat → List Char → Option (PyVal × List Char)
  | 0, _ => none
  | fuel + 1, cs =>
    match cs with
    | [] => none
    | c :: rest =>
      if c == '"' then
        (jsonStringBody rest).map (fun p => (PyVal.str p.1, p.2))
      else if c == jsonLBrace then
        match jsonWs rest with
        | [] => none
        | d :: rest2 =>
          if d == jsonRBrace then some (PyVal.obj [], rest2)
          else jsonMembers fuel [] (d :: rest2)
      else if c == '[' then
        match jsonWs rest with
        | [] => none
        | d :: rest2 =>
          if d == ']' then some (PyVal.arr [], rest2)
          else jsonElements fuel [] (d :: rest2)
      else if c == 't' then
        match cs with
        | 't' :: 'r' :: 'u' :: 'e' :: rest2 =>
          some (PyVal.bool true, rest2)
        | _ => none
      else if c == 'f' then
        match cs with
        | 'f' :: 'a' :: 'l' :: 's' :: 'e' :: rest2 =>
          some (PyVal.bool false, rest2)
        | _ => none
      else if c == 'n' then
        match cs with
        | 'n' :: 'u' :: 'l' :: 'l' :: rest2 => some (PyVal.null, rest2)
        | _ => none
      else if c == '-' then
        (jsonIntTail rest).map (fun p => (PyVal.int (-(p.1 : Int)), p.2))
      else if c.isDigit then
        (jsonIntTail cs).map (fun p => (PyVal.int (p.1 : Int), p.2))
      else none

def jsonMembers : Nat → List (String × PyVal) → List Char →
    Option (PyVal × List Char)
  | 0, _, _ => none
  | fuel + 1, acc, cs =>
    match cs with
    | c :: rest =>
      if c == '"' then
        match jsonStringBody rest with
        | some (k, rest2) =>
          match jsonWs rest2 with
          | ':' :: rest3 =>
            match jsonValue fuel (jsonWs rest3) with
            | some (v, rest4) =>
              match jsonWs rest4 with
              | ',' :: rest5 =>
                match jsonWs rest5 with
                | [] => none
                | d :: rest6 => jsonMembers fuel (objInsert acc k v)
                    (d :: rest6)
              | d :: rest5 =>
                if d == jsonRBrace then
                  some (PyVal.obj (objInsert acc k v), rest5)
                else none
              | [] => none
            | none => none
          | _ => none
        | none => none
      else none
    | [] => none

def jsonElements : Nat → List PyVal → List Char →
    Option (PyVal × List Char)
  | 0, _, _ => none
  | fuel + 1, acc, cs =>
    match jsonValue fuel cs with
    | some (v, rest) =>
      match jsonWs rest with
      | ',' :: rest2 => jsonElements fuel (acc ++ [v]) (jsonWs rest2)
      | ']' :: rest2 => some (PyVal.arr (acc ++ [v]), rest2)
      | _ => none
    | none => none

end

/-- `json.loads` on the modelled fragment; `none` is `JSONDecodeError`. -/
def json_loads (s : String) : Option PyVal :=
  match jsonValue (s.data.length + 1) (jsonWs s.data) with
  | some (v, rest) => if (jsonWs rest).isEmpty then some v else none
  | none => none

/-! ### `json.dumps` (default separators, minimal escaping) -/

def jsonDumpString (s : String) : String :=
  "\"" ++ String.mk (s.data.flatMap (fun c =>
    if c == '"' then ['\\', '"']
    else if c == '\\' then ['\\', '\\']
    else [c])) ++ "\""

mutual

def json_dumps : PyVal → String
  | .null => "null"
  | .bool true => "true"
  | .bool false => "false"
  | .int n => toString n
  | .str s => jsonDumpString s
  | .arr xs => "[" ++ jsonDumpsList xs ++ "]"
  | .obj kvs => "\x7b" ++ jsonDumpsObj kvs ++ "\x7d"

def jsonDumpsList : List PyVal → String
  | [] => ""
  | [x] => json_dumps x
  | x :: y :: xs => json_dumps x ++ ", " ++ jsonDumpsList (y :: xs)

def jsonDumpsObj : List (String × PyVal) → String
  | [] => ""
  | [kv] => jsonDumpString kv.1 ++ ": " ++ json_dumps kv.2
  | kv :: kv2 :: kvs =>
      jsonDumpString kv.1 ++ ": " ++ json_dumps kv.2 ++ ", " ++
        jsonDumpsObj (kv2 :: kvs)

end

/-! ### Records and transforms

Raw API nodes carry JSON values; per the GraphQL schema, text and
timestamp fields are strings or null (`Option String`), identifier-like
fields are arbitrary JSON values fed to `_to_long`. -/

/-- Checkpoint mapping: at most the single recognized key `cursor`;
`none` is the empty mapping (the spec's documented layout). -/
structure Checkpoint where
  cursor : Option String
deriving Repr, DecidableEq

def SENTINEL : String := "1970-01-01T00:00:00Z"

/-- Raw board node of the `boards` query. -/
structure RawBoard where
  id : PyVal
  name : Option String
  description : Option String
  state : Option String
  board_kind : Option String
  workspace_id : PyVal
  created_at : Option String
  updated_at : Option String
  url : Option String
  items_count : PyVal
  permissions : Option String
deriving Repr

/-- Output record of `_transform_board`. -/
structure BoardRec where
  id : Option Int
  name : Option String
  description : Option String
  state : Option String
  board_kind : Option String
  workspace_id : Option Int
  created_at : Option String
  updated_at : Option String
  url : Option String
  items_count : Option Int
  permissions : Option String
deriving Repr, DecidableEq

/-- `_transform_board` (monday.py lines 432-446). -/
def transform_board (b : RawBoard) : BoardRec :=
  { id := to_long b.id
    name := b.name
    description := b.description
    state := b.state
    board_kind := b.board_kind
    workspace_id := to_long b.workspace_id
    created_at := b.created_at
    updated_at := b.updated_at
    url := b.url
    items_count := to_long b.items_count
    permissions := b.permissions }

/-- `dict.get(k)` on a JSON object: the value, or `None` when absent. -/
def dictGet (kvs : List (String × PyVal)) (k : String) : PyVal :=
  match (kvs.filter (fun kv => kv.1 == k)).getLast? with
  | some kv => kv.2
  | none => PyVal.null

/-- Raw item node: `board`/`group` are nested objects or null. -/
structure RawItem where
  id : PyVal
  name : Option String
  state : Option String
  created_at : Option String
  updated_at : Option String
  creator_id : PyVal
  board : Option (List (String × PyVal))
  group : Option (List (String × PyVal))
  column_values : List PyVal
  url : Option String
deriving Repr

/-- Output record of `_transform_item`. -/
structure ItemRec where
  id : Option Int
  name : Option String
  state : Option String
  created_at : Option String
  updated_at : Option String
  creator_id : Option Int
  board_id : Option Int
  group_id : PyVal
  column_values : Option String
  url : Option String
deriving Repr

/-- `_transform_item` (monday.py lines 663-682): `board`/`group` default
to the empty dict (`or {}`); `column_values` serializes through
`json.dumps` unless empty. -/
def transform_item (it : RawItem) : ItemRec :=
  let board := it.board.getD []
  let group := it.group.getD []
  { id := to_long it.id
    name := it.name
    state := it.state
    created_at := it.created_at
    updated_at := it.updated_at
    creator_id := to_long it.creator_id
    board_id := to_long (dictGet board "id")
    group_id := dictGet group "id"
    column_values :=
      if it.column_values.isEmpty then none
      else some (json_dumps (PyVal.arr it.column_values))
    url := it.url }

/-- Raw user node. -/
structure RawUser where
  id : PyVal
  name : Option String
  email : Option String
  enabled : Option Bool
  url : Option String
  created_at : Option String
  is_admin : Option Bool
  is_guest : Option Bool
  is_view_only : Option Bool
  title : Option String
  location : Option String
  phone : Option String
  mobile_phone : Option String
  time_zone_identifier : Option String
deriving Repr

/-- Output record of `_transform_user`. -/
structure UserRec where
  id : Option Int
  name : Option String
  email : Option String
  enabled : Option Bool
  url : Option String
  created_at : Option String
  is_admin : Option Bool
  is_guest : Option Bool
  is_view_only : Option Bool
  title : Option String
  location : Option String
  phone : Option String
  mobile_phone : Option String
  time_zone_identifier : Option String
deriving Repr

/-- `_transform_user` (monday.py lines 740-757). -/
def transform_user (u : RawUser) : UserRec :=
  { id := to_long u.id
    name := u.name
    email := u.email
    enabled := u.enabled
    url := u.url
    created_at := u.created_at
    is_admin := u.is_admin
    is_guest := u.is_guest
    is_view_only := u.is_view_only
    title := u.title
    location := u.location
    phone := u.phone
    mobile_phone := u.mobile_phone
    time_zone_identifier := u.time_zone_identifier }

/-! ### Change-log entries and identifier extraction -/

/-- A change-log entry as assembled by `_query_activity_logs` (lines
1229-1238): `created_at` is already converted (always a string), `data`
is the raw JSON payload value, `board_id` is the parent board's raw id,
`entity` is the raw entity tag (`none` models JSON null/missing). -/
structure LogEntry where
  id : Option String
  event : Option String
  entity : Option String
  data : PyVal
  created_at : String
  board_id : PyVal
deriving Repr

/-- The running-maximum step shared by `_get_max_timestamp`, the
snapshot loops and the CDC record loops: `if v and v > m: m = v` over
optionally-present string values (Python truthiness: skip `None` and the
empty string). -/
def maxTruthy (vals : List (Option String)) (init : String) : String :=
  vals.foldl (fun m v =>
    match v with
    | some s => if !s.isEmpty && pyStrGt s m then s else m
    | none => m) init

/-- `_get_max_timestamp` (monday.py lines 1381-1390): running maximum of
truthy `created_at` values under Python string `>`, seeded with
`current_max` (`created_at` is always present on the assembled log
dicts). -/
def get_max_timestamp (logs : List LogEntry) (current_max : String) :
    String :=
  maxTruthy (logs.map (fun log => some log.created_at)) current_max

/-- Running maximum of truthy `updated_at` values over board records. -/
def boardsMaxUpd (records : List BoardRec) (init : String) : String :=
  maxTruthy (records.map (fun r => r.updated_at)) init

/-- Running maximum of truthy `updated_at` values over item records
(the interleaved tracking of `_read_items_snapshot`). -/
def itemsMaxUpd (records : List ItemRec) (init : String) : String :=
  maxTruthy (records.map (fun r => r.updated_at)) init


/-- Python `set.add` modelled on an insertion-ordered duplicate-free
list. -/
def setAdd (xs : List String) (x : String) : List String :=
  if xs.contains x then xs else xs ++ [x]

/-- The priority-key loop of `_extract_item_ids_from_logs` (lines
1268-1272): first matching key wins; the `Bool` is true when a
`TypeError` was raised (caught at the entry level, keeping adds already
made). -/
def prioGo (data : PyVal) (acc : List String) :
    List String → List String × Bool
  | [] => (acc, false)
  | k :: ks =>
    match pyContains data k with
    | .error _ => (acc, true)
    | .ok false => prioGo data acc ks
    | .ok true =>
      match pyGetItem data k with
      | .error _ => (acc, true)
      | .ok v => (setAdd acc (pyStr v), false)

def PRIORITY_KEYS : List String :=
  ["pulse_id", "item_id", "id", "pulseId", "itemId"]

/-- The combined-key check of `_extract_item_ids_from_logs` (lines
1274-1276). -/
def combinedStep (data : PyVal) (acc : List String) :
    List String × Bool :=
  match pyContains data "board_id" with
  | .error _ => (acc, true)
  | .ok false => (acc, false)
  | .ok true =>
    match pyContains data "pulse_id" with
    | .error _ => (acc, true)
    | .ok false => (acc, false)
    | .ok true =>
      match pyGetItem data "pulse_id" with
      | .error _ => (acc, true)
      | .ok v => (setAdd acc (pyStr v), false)

/-- One entry of the `_extract_item_ids_from_logs` loop: skip non-pulse
entries and falsy payloads; parse string payloads with `json.loads`
(parse failure caught); `TypeError` inside the `try` skips the rest of
the entry but keeps earlier adds. -/
def processEntry (acc : List String) (log : LogEntry) : List String :=
  if log.entity != some "pulse" then acc
  else if !pyTruthy log.data then acc
  else
    match
      (match log.data with
       | .str s => json_loads s
       | v => some v) with
    | none => acc
    | some data =>
      let r := prioGo data acc PRIORITY_KEYS
      if r.2 then r.1 else (combinedStep data r.1).1

/-- `_extract_item_ids_from_logs` (monday.py lines 1248-1281), with the
Python set modelled as an insertion-ordered duplicate-free list. -/
def extract_item_ids_from_logs (logs : List LogEntry) : List String :=
  logs.foldl processEntry []

/-- `_extract_board_ids_from_logs` (monday.py lines 1283-1294). -/
def extract_board_ids_from_logs (logs : List LogEntry) : List String :=
  logs.foldl (fun acc log =>
    if log.entity == some "board" then
      if pyTruthy log.board_id then setAdd acc (pyStr log.board_id)
      else acc
    else acc) []

/-! ### `_convert_activity_timestamp` (monday.py lines 1150-1162)

`int(timestamp) / 10_000_000` then `datetime.utcfromtimestamp` then
`strftime`.  `ValueError`/`TypeError`/`OSError` are caught and degrade to
the epoch string; the `OverflowError` raised when the quotient exceeds
the float range (`int/int` division) or the timestamp exceeds the
platform `time_t` is NOT caught.  Both overflow sources are modelled by
the single bound `2^63 * 10^7` on the numerator (the float-rounded
boundary may differ within one ulp; all concrete inputs below are far
from it).  In-range arithmetic is modelled exactly (the float value is
exact for all concrete inputs used below); `utcfromtimestamp` rounds to
whole microseconds half-to-even. -/

def yearLoop : Nat → Nat → Nat → Nat × Nat
  | 0, y, days => (y, days)
  | fuel + 1, y, days =>
    if days < daysInYear y then (y, days)
    else yearLoop fuel (y + 1) (days - daysInYear y)

def monthLoop : Nat → Nat → Nat → Nat → Nat × Nat
  | 0, _, mo, days => (mo, days)
  | fuel + 1, y, mo, days =>
    if days < daysInMonth y mo then (mo, days)
    else monthLoop fuel y (mo + 1) (days - daysInMonth y mo)

/-- Inverse of `toSecs` for in-range second counts. -/
def from_secs (n : Nat) : DT :=
  let days := n / 86400
  let rem := n % 86400
  let yd := yearLoop 9999 1 days
  let md := monthLoop 12 yd.1 1 yd.2
  ⟨yd.1, md.1, md.2 + 1, rem / 3600, rem % 3600 / 60, rem % 60⟩

def epochSecs : Nat := toSecs ⟨1970, 1, 1, 0, 0, 0⟩

def maxSecs : Nat := toSecs ⟨9999, 12, 31, 23, 59, 59⟩

/-- Round-half-even division by 10 (microsecond rounding of
`utcfromtimestamp`, tenths of microseconds to microseconds). -/
def rheDiv10 (n : Int) : Int :=
  let q := Int.fdiv n 10
  let r := n - 10 * q
  if r < 5 then q
  else if 5 < r then q + 1
  else if Int.emod q 2 = 0 then q else q + 1

def convert_activity_timestamp (timestamp : String) : Except Unit String :=
  match pyInt timestamp with
  | none => Except.ok SENTINEL
  | some n =>
    if 2 ^ 63 * 10 ^ 7 ≤ n.natAbs then Except.error ()
    else
      let us : Int := rheDiv10 n
      let sec : Int := Int.fdiv us 1000000
      let abs : Int := (epochSecs : Int) + sec
      if 0 ≤ abs ∧ abs ≤ (maxSecs : Int) then
        Except.ok (formatDT (from_secs abs.toNat))
      else Except.ok SENTINEL

/-! ### Running-maximum lemmas -/

theorem pyStrLe_of_not_lt {a b : String} (h : pyStrLt b a = false) :
    pyStrLe a b = true := by
  by_cases h2 : pyStrLt a b = true
  · exact pyStrLe_of_lt h2
  · have he := pyStr_eq_of_not_lt (by simpa using h2) h
    subst he
    exact pyStrLe_refl a

theorem maxTruthy_cons (v : Option String) (vals : List (Option String))
    (init : String) :
    maxTruthy (v :: vals) init = maxTruthy vals
      (match v with
       | some s => if !s.isEmpty && pyStrGt s init then s else init
       | none => init) := rfl

theorem maxTruthy_le (vals : List (Option String)) (init : String) :
    pyStrLe init (maxTruthy vals init) = true := by
  induction vals generalizing init with
  | nil => exact pyStrLe_refl init
  | cons v vals ih =>
    rw [maxTruthy_cons]
    rcases v with _ | s
    · exact ih init
    · dsimp only
      split_ifs with hc
      · simp only [Bool.and_eq_true] at hc
        exact pyStrLe_trans (pyStrLe_of_lt hc.2) (ih s)
      · exact ih init

theorem maxTruthy_cases (vals : List (Option String)) (init : String) :
    maxTruthy vals init = init ∨
      ∃ s, some s ∈ vals ∧ maxTruthy vals init = s ∧ s ≠ "" ∧
        pyStrLt init s = true := by
  induction vals generalizing init with
  | nil => exact Or.inl rfl
  | cons v vals ih =>
    rw [maxTruthy_cons]
    rcases v with _ | s
    · rcases ih init with h | ⟨s, hm, he, hne, hlt⟩
      · exact Or.inl h
      · exact Or.inr ⟨s, List.mem_cons_of_mem _ hm, he, hne, hlt⟩
    · dsimp only
      split_ifs with hc
      · simp only [Bool.and_eq_true, Bool.not_eq_true'] at hc
        have hse : s ≠ "" := by
          intro he
          rw [he] at hc
          exact absurd hc.1 (by decide)
        rcases ih s with h | ⟨s2, hm, he, hne, hlt⟩
        · exact Or.inr ⟨s, List.mem_cons_self _ _, h, hse, hc.2⟩
        · exact Or.inr ⟨s2, List.mem_cons_of_mem _ hm, he, hne,
            pyStrLt_trans hc.2 hlt⟩
      · rcases ih init with h | ⟨s2, hm, he, hne, hlt⟩
        · exact Or.inl h
        · exact Or.inr ⟨s2, List.mem_cons_of_mem _ hm, he, hne, hlt⟩

theorem maxTruthy_ge {vals : List (Option String)} {init s : String}
    (hm : some s ∈ vals) (hs : s ≠ "") :
    pyStrLe s (maxTruthy vals init) = true := by
  induction vals generalizing init with
  | nil => cases hm
  | cons v vals ih =>
    rw [maxTruthy_cons]
    rcases List.mem_cons.mp hm with he | hm2
    · cases he
      dsimp only
      have hne : s.isEmpty = false := by
        cases h : s.isEmpty with
        | false => rfl
        | true => exact absurd ((String.isEmpty_iff s).mp h) hs
      split_ifs with hc
      · exact maxTruthy_le vals s
      · simp only [hne, Bool.not_false, Bool.true_and] at hc
        have hc2 : pyStrLt init s = false := by simpa using hc
        exact pyStrLe_trans (pyStrLe_of_not_lt hc2)
          (maxTruthy_le vals init)
    · rcases v with _ | s2
      · exact ih hm2
      · dsimp only
        split_ifs with hc
        · exact ih hm2
        · exact ih hm2

theorem maxTruthy_canon {vals : List (Option String)} {init : String}
    (hi : isCanonTs init = true)
    (hv : ∀ v ∈ vals, v = none ∨ v = some "" ∨
      ∃ s, v = some s ∧ isCanonTs s = true) :
    isCanonTs (maxTruthy vals init) = true := by
  rcases maxTruthy_cases vals init with h | ⟨s, hm, he, hne, _⟩
  · rw [h]
    exact hi
  · rw [he]
    rcases hv _ hm with h2 | h2 | ⟨s2, he2, hc⟩
    · cases h2
    · exact absurd (Option.some.inj h2) hne
    · cases Option.some.inj he2
      exact hc

theorem maxTruthy_ne_empty {vals : List (Option String)} {init : String}
    (hi : init ≠ "") : maxTruthy vals init ≠ "" := by
  rcases maxTruthy_cases vals init with h | ⟨s, _, he, hne, _⟩
  · rw [h]
    exact hi
  · rw [he]
    exact hne

theorem formatDT_ne_empty (t : DT) : formatDT t ≠ "" := by
  intro h
  have hd : (formatDT t).data = [] := by rw [h]
  simp [formatDT, formatChars, pad4, pad2] at hd

theorem apply_lookback_ok_nonempty {s u : String} (hs : s ≠ "")
    (h : apply_lookback s = Except.ok u) : u ≠ "" := by
  rcases hp : pyStrptime s with _ | dt
  · unfold apply_lookback at h
    rw [hp] at h
    cases h
    exact hs
  · rw [apply_lookback_parsed hp] at h
    rcases hsub : subOneMinute dt with _ | dt2
    · rw [hsub] at h
      cases h
    · rw [hsub] at h
      cases h
      exact formatDT_ne_empty dt2

/-! ### Page-number pagination (PageCursorDriver)

The loop shared verbatim by `_read_users` (lines 714-737),
`_read_workspaces`, `_read_updates`, and `_discover_board_ids`: request
page 1, stop on an empty batch before yielding, yield the batch, stop
after a batch strictly shorter than the page size, else request the next
page.  The API is abstracted as the per-page response function `resp`;
`fuel` is a modelling artifact bounding the unrolling (the Python loop
is unbounded), and theorems are conditioned on termination within fuel.
Returns the yielded nodes and the list of requested page numbers. -/

def pagedLoop {α : Type} (resp : Nat → List α) (pageSize : Int) :
    Nat → Nat → List α × List Nat
  | 0, _ => ([], [])
  | fuel + 1, page =>
    let batch := resp page
    if batch.isEmpty then ([], [page])
    else if (batch.length : Int) < pageSize then (batch, [page])
    else
      let r := pagedLoop resp pageSize fuel (page + 1)
      (batch ++ r.1, page :: r.2)

/-- Termination of the page loop within `fuel` requests starting at
`page`: some requested page returns an empty or short batch. -/
def pagesTerm {α : Type} (resp : Nat → List α) (pageSize : Int) :
    Nat → Nat → Bool
  | 0, _ => false
  | fuel + 1, page =>
    (resp page).isEmpty || ((resp page).length : Int) < pageSize ||
      pagesTerm resp pageSize fuel (page + 1)

/-- `_read_users` (monday.py lines 684-738): page loop plus per-record
transform; the checkpoint is always the empty mapping. -/
def read_users (resp : Nat → List RawUser) (pageSize : Int) (fuel : Nat) :
    List UserRec × Checkpoint :=
  ((pagedLoop resp pageSize fuel 1).1.map transform_user, ⟨none⟩)

/-- `_read_boards_snapshot` loop (monday.py lines 352-378): the page loop
with the interleaved running maximum of transformed records' truthy
`updated_at` values. -/
def boardsSnapshotLoop (resp : Nat → List RawBoard) (pageSize : Int) :
    Nat → Nat → String → List BoardRec × String × List Nat
  | 0, _, maxU => ([], maxU, [])
  | fuel + 1, page, maxU =>
    let boards := resp page
    if boards.isEmpty then ([], maxU, [page])
    else
      let recs := boards.map transform_board
      let maxU2 := boardsMaxUpd recs maxU
      if (boards.length : Int) < pageSize then (recs, maxU2, [page])
      else
        let r := boardsSnapshotLoop resp pageSize fuel (page + 1) maxU2
        (recs ++ r.1, r.2.1, page :: r.2.2)

/-- `_read_boards_snapshot` (monday.py lines 327-386): empty checkpoint
when the maximum never moved off the sentinel, else the lookback of the
maximum (an escaping `OverflowError` propagates). -/
def read_boards_snapshot (resp : Nat → List RawBoard) (pageSize : Int)
    (fuel : Nat) : Except Unit (List BoardRec × Checkpoint) :=
  let r := boardsSnapshotLoop resp pageSize fuel 1 SENTINEL
  if r.2.1 != SENTINEL then
    match apply_lookback r.2.1 with
    | .ok c => .ok (r.1, if c.isEmpty then ⟨none⟩ else ⟨some c⟩)
    | .error e => .error e
  else .ok (r.1, ⟨none⟩)

/-! ### Token pagination (TokenCursorDriver)

`_read_items_for_board` (monday.py lines 578-661).  The initial query
returns a list of boards, each with an `items_page` holding a batch and
an opaque cursor token; follow-up queries (`next_items_page`) are keyed
by the token alone.  The loop is `while cursor:` -- Python truthiness,
so it stops on a null, absent, OR empty-string token.  The API is
abstracted as the initial response (the boards array mapped to its
`items_page`) and the follow-up response function `next`. -/

structure ItemsPage where
  cursor : Option String
  items : List RawItem
deriving Repr

/-- The `while cursor:` loop; returns yielded records and the tokens
actually requested. -/
def tokenLoop (next : String → ItemsPage) :
    Nat → Option String → List ItemRec × List String
  | _, none => ([], [])
  | 0, some tok => if tok.isEmpty then ([], []) else ([], [])
  | fuel + 1, some tok =>
    if tok.isEmpty then ([], [])
    else
      let p := next tok
      let r := tokenLoop next fuel p.cursor
      (p.items.map transform_item ++ r.1, tok :: r.2)

/-- Termination of the token loop within `fuel` follow-up requests. -/
def tokenTerm (next : String → ItemsPage) : Nat → Option String → Bool
  | _, none => true
  | 0, some tok => tok.isEmpty
  | fuel + 1, some tok =>
    tok.isEmpty || tokenTerm next fuel (next tok).cursor

/-- `_read_items_for_board`: no boards in the initial response yields
nothing; otherwise the first board's page is yielded and the token loop
follows. -/
def read_items_for_board (initResp : List ItemsPage)
    (next : String → ItemsPage) (fuel : Nat) :
    List ItemRec × List String :=
  match initResp.head? with
  | none => ([], [])
  | some ip =>
    let r := tokenLoop next fuel ip.cursor
    (ip.items.map transform_item ++ r.1, r.2)

/-- `_read_items_snapshot` (monday.py lines 483-507). -/
def read_items_snapshot (initOf : String → List ItemsPage)
    (next : String → ItemsPage) (board_ids : List String) (fuel : Nat) :
    Except Unit (List ItemRec × Checkpoint) :=
  let records := board_ids.flatMap
    (fun b => (read_items_for_board (initOf b) next fuel).1)
  let maxU := itemsMaxUpd records SENTINEL
  if maxU != SENTINEL then
    match apply_lookback maxU with
    | .ok c => .ok (records, if c.isEmpty then ⟨none⟩ else ⟨some c⟩)
    | .error e => .error e
  else .ok (records, ⟨none⟩)

/-! ### Driver lemmas -/

/-- Characterizes a terminating page-number traversal: consecutive page
numbers from the start page, every interior batch full, the final batch
empty or short. -/
def isPageRun {α : Type} (resp : Nat → List α) (pageSize : Int) :
    Nat → List Nat → Bool
  | _, [] => false
  | p, [r] =>
    r == p && ((resp r).isEmpty || decide (((resp r).length : Int) <
      pageSize))
  | p, r :: r2 :: rest =>
    r == p && !(resp r).isEmpty &&
      !(decide (((resp r).length : Int) < pageSize)) &&
      isPageRun resp pageSize (p + 1) (r2 :: rest)

theorem pagedLoop_spec {α : Type} (resp : Nat → List α) (pageSize : Int) :
    ∀ fuel page, pagesTerm resp pageSize fuel page = true →
      isPageRun resp pageSize page
        (pagedLoop resp pageSize fuel page).2 = true ∧
      (pagedLoop resp pageSize fuel page).1 =
        (pagedLoop resp pageSize fuel page).2.flatMap resp := by
  intro fuel
  induction fuel with
  | zero =>
    intro page h
    simp [pagesTerm] at h
  | succ fuel ih =>
    intro page h
    unfold pagedLoop
    by_cases he : (resp page).isEmpty
    · have he2 : resp page = [] := by simpa [List.isEmpty_iff] using he
      constructor
      · simp [he, isPageRun]
      · simp [he, he2]
    · by_cases hs : ((resp page).length : Int) < pageSize
      · constructor
        · simp [he, hs, isPageRun]
        · simp [he, hs]
      · have hterm : pagesTerm resp pageSize fuel (page + 1) = true := by
          unfold pagesTerm at h
          simpa [he, hs] using h
        obtain ⟨hrun, hrec⟩ := ih (page + 1) hterm
        constructor
        · cases hr : (pagedLoop resp pageSize fuel (page + 1)).2 with
          | nil =>
            rw [hr] at hrun
            simp [isPageRun] at hrun
          | cons a as =>
            rw [hr] at hrun
            simp [he, hs, isPageRun, hr, hrun]
        · simp [he, hs, hrec]

theorem boardsMaxUpd_append (a b : List BoardRec) (init : String) :
    boardsMaxUpd (a ++ b) init = boardsMaxUpd b (boardsMaxUpd a init) := by
  simp [boardsMaxUpd, maxTruthy]

theorem boardsSnapshotLoop_spec (resp : Nat → List RawBoard)
    (pageSize : Int) :
    ∀ fuel page maxU, pagesTerm resp pageSize fuel page = true →
      isPageRun resp pageSize page
        (boardsSnapshotLoop resp pageSize fuel page maxU).2.2 = true ∧
      (boardsSnapshotLoop resp pageSize fuel page maxU).1 =
        (boardsSnapshotLoop resp pageSize fuel page maxU).2.2.flatMap
          (fun p => (resp p).map transform_board) ∧
      (boardsSnapshotLoop resp pageSize fuel page maxU).2.1 =
        boardsMaxUpd (boardsSnapshotLoop resp pageSize fuel page maxU).1
          maxU := by
  intro fuel
  induction fuel with
  | zero =>
    intro page maxU h
    simp [pagesTerm] at h
  | succ fuel ih =>
    intro page maxU h
    unfold boardsSnapshotLoop
    by_cases he : (resp page).isEmpty
    · have he2 : resp page = [] := by simpa [List.isEmpty_iff] using he
      refine ⟨by simp [he, isPageRun], by simp [he, he2], ?_⟩
      simp [he, boardsMaxUpd, maxTruthy]
    · by_cases hs : ((resp page).length : Int) < pageSize
      · exact ⟨by simp [he, hs, isPageRun], by simp [he, hs], by
          simp [he, hs]⟩
      · have hterm : pagesTerm resp pageSize fuel (page + 1) = true := by
          unfold pagesTerm at h
          simpa [he, hs] using h
        obtain ⟨hrun, hrec, hmax⟩ := ih (page + 1)
          (boardsMaxUpd ((resp page).map transform_board) maxU) hterm
        refine ⟨?_, ?_, ?_⟩
        · cases hr : (boardsSnapshotLoop resp pageSize fuel (page + 1)
              (boardsMaxUpd ((resp page).map transform_board) maxU)).2.2
            with
          | nil =>
            rw [hr] at hrun
            simp [isPageRun] at hrun
          | cons a as =>
            rw [hr] at hrun
            simp [he, hs, isPageRun, hr, hrun]
        · simp [he, hs, hrec]
        · simp only [he, hs]
          simp only [Bool.false_eq_true, if_false, if_neg hs]
          rw [boardsMaxUpd_append]
          simp [hmax]

/-- Characterizes a terminating token traversal: each request reuses the
previous response's token, requests happen exactly while the token is
truthy, and the chain ends at a falsy token. -/
def isTokenChain (next : String → ItemsPage) :
    Option String → List String → Bool
  | t, [] =>
    match t with
    | none => true
    | some tok => tok.isEmpty
  | t, r :: rest =>
    t == some r && !r.isEmpty && isTokenChain next (next r).cursor rest

theorem tokenLoop_spec (next : String → ItemsPage) :
    ∀ fuel t, tokenTerm next fuel t = true →
      isTokenChain next t (tokenLoop next fuel t).2 = true ∧
      (tokenLoop next fuel t).1 = (tokenLoop next fuel t).2.flatMap
        (fun r => (next r).items.map transform_item) := by
  intro fuel
  induction fuel with
  | zero =>
    intro t h
    rcases t with _ | tok
    · exact ⟨rfl, rfl⟩
    · have : tok.isEmpty = true := by simpa [tokenTerm] using h
      simp [tokenLoop, isTokenChain, this]
  | succ fuel ih =>
    intro t h
    rcases t with _ | tok
    · exact ⟨rfl, rfl⟩
    · by_cases hemp : tok.isEmpty
      · simp [tokenLoop, isTokenChain, hemp]
      · have hterm : tokenTerm next fuel (next tok).cursor = true := by
          simpa [tokenTerm, hemp] using h
        obtain ⟨hrun, hrec⟩ := ih (next tok).cursor hterm
        constructor
        · simp [tokenLoop, isTokenChain, hemp, hrun]
        · simp [tokenLoop, hemp, hrec]

/-! ### Incremental (CDC) passes

`_query_activity_logs`, `_discover_board_ids`, `_fetch_boards_by_ids`
and `_fetch_items_by_ids` are network collaborators; their results enter
as parameters (`discovered`, `logs`, `fetchedFor`). -/

/-- `_read_boards_cdc` (monday.py lines 388-430). -/
def read_boards_cdc (discovered : List String) (logs : List LogEntry)
    (fetchedFor : List String → List BoardRec) (cursor : String) :
    Except Unit (List BoardRec × Checkpoint) :=
  if discovered.isEmpty then .ok ([], ⟨some cursor⟩)
  else if logs.isEmpty then .ok ([], ⟨some cursor⟩)
  else
    let changed_board_ids := extract_board_ids_from_logs logs
    let max_timestamp := get_max_timestamp logs cursor
    if changed_board_ids.isEmpty then
      match apply_lookback max_timestamp with
      | .ok c => .ok ([], ⟨some c⟩)
      | .error e => .error e
    else
      let boards := fetchedFor changed_board_ids
      let mx := boardsMaxUpd boards max_timestamp
      match apply_lookback mx with
      | .ok c => .ok (boards, ⟨some c⟩)
      | .error e => .error e

/-- `_read_items_cdc` (monday.py lines 509-545). -/
def read_items_cdc (logs : List LogEntry)
    (fetchedFor : List String → List ItemRec) (cursor : String) :
    Except Unit (List ItemRec × Checkpoint) :=
  if logs.isEmpty then .ok ([], ⟨some cursor⟩)
  else
    let changed_item_ids := extract_item_ids_from_logs logs
    let max_timestamp := get_max_timestamp logs cursor
    if changed_item_ids.isEmpty then
      match apply_lookback max_timestamp with
      | .ok c => .ok ([], ⟨some c⟩)
      | .error e => .error e
    else
      let items := fetchedFor changed_item_ids
      let mx := itemsMaxUpd items max_timestamp
      match apply_lookback mx with
      | .ok c => .ok (items, ⟨some c⟩)
      | .error e => .error e

/-! ### `_read_items` dispatcher (monday.py lines 448-481) -/

/-- Recognized table options (the source ignores unrecognized keys). -/
structure Options where
  page_size : Option String
  board_ids : Option String
deriving Repr

/-- `int(table_options.get("page_size", default))`: the default is
already an int; a present value parses with `int()`, whose `ValueError`
escapes. -/
def parse_page_size (o : Option String) (dflt : Int) : Except Unit Int :=
  match o with
  | none => .ok dflt
  | some s =>
    match pyInt s with
    | some n => .ok n
    | none => .error ()

def pyStrip (s : String) : String :=
  String.mk (((s.data.dropWhile isPySpace).reverse.dropWhile
    isPySpace).reverse)

/-- `[bid.strip() for bid in s.split(",") if bid.strip()]`. -/
def split_board_ids (s : String) : List String :=
  ((s.splitOn ",").map pyStrip).filter (fun x => !x.isEmpty)

/-- The network collaborators of the items table, abstracted. -/
structure ItemsEnv where
  discovered : List String
  initOf : String → List ItemsPage
  next : String → ItemsPage
  logsFor : List String → String → List LogEntry
  fetchedFor : List String → List ItemRec

/-- `_read_items`: resolve board ids (explicit option or discovery),
return empty records and an EMPTY mapping when none resolve -- before the
cursor is ever consulted -- else dispatch on cursor truthiness. -/
def read_items (env : ItemsEnv) (start_offset : Checkpoint)
    (opts : Options) (fuel : Nat) :
    Except Unit (List ItemRec × Checkpoint) :=
  match parse_page_size opts.page_size 100 with
  | .error e => .error e
  | .ok _page_size =>
    let board_ids_str := opts.board_ids.getD ""
    let board_ids :=
      if !board_ids_str.isEmpty then split_board_ids board_ids_str
      else env.discovered
    if board_ids.isEmpty then .ok ([], ⟨none⟩)
    else
      match start_offset.cursor with
      | none => read_items_snapshot env.initOf env.next board_ids fuel
      | some c =>
        if c.isEmpty then
          read_items_snapshot env.initOf env.next board_ids fuel
        else read_items_cdc (env.logsFor board_ids c) env.fetchedFor c

/-! ## Claims -/

/-- C2: for every incremental (CDC) pass of boards or items with a
cursor present where the change-log query returns zero entries, the read
operation emits zero records and the returned checkpoint is exactly the
input checkpoint: the same single `cursor` entry, unchanged. -/
theorem C2_incremental_no_changes :
    (∀ (discovered : List String)
       (fetchedFor : List String → List BoardRec) (cursor : String),
       read_boards_cdc discovered [] fetchedFor cursor =
         Except.ok ([], ⟨some cursor⟩)) ∧
    (∀ (fetchedFor : List String → List ItemRec) (cursor : String),
       read_items_cdc [] fetchedFor cursor =
         Except.ok ([], ⟨some cursor⟩)) := by
  constructor
  · intro discovered fetchedFor cursor
    unfold read_boards_cdc
    split_ifs with h1 h2
    · rfl
    · rfl
    · exact absurd rfl h2
  · intro fetchedFor cursor
    rfl

/-- C3: for every incremental pass (boards or items) where the change
log returns at least one entry but no entity identifier can be
extracted, the pass emits zero records and the returned checkpoint's
cursor is the lookback adjustment of the maximum change-log timestamp,
with the input cursor as the initial maximum (when the lookback raises,
the raise propagates and no checkpoint is returned). -/
theorem C3_activity_without_ids :
    (∀ (discovered : List String) (logs : List LogEntry)
       (fetchedFor : List String → List BoardRec) (cursor : String),
       discovered.isEmpty = false → logs.isEmpty = false →
       (extract_board_ids_from_logs logs).isEmpty = true →
       read_boards_cdc discovered logs fetchedFor cursor =
         (apply_lookback (get_max_timestamp logs cursor)).map
           (fun c => ([], ⟨some c⟩))) ∧
    (∀ (logs : List LogEntry) (fetchedFor : List String → List ItemRec)
       (cursor : String),
       logs.isEmpty = false →
       (extract_item_ids_from_logs logs).isEmpty = true →
       read_items_cdc logs fetchedFor cursor =
         (apply_lookback (get_max_timestamp logs cursor)).map
           (fun c => ([], ⟨some c⟩))) := by
  constructor
  · intro discovered logs fetchedFor cursor hd hl he
    unfold read_boards_cdc
    simp only [hd, hl, he, Bool.false_eq_true, if_false, if_true]
    rcases hlb : apply_lookback (get_max_timestamp logs cursor) with e | c
      <;> rfl
  · intro logs fetchedFor cursor hl he
    unfold read_items_cdc
    simp only [hl, he, Bool.false_eq_true, if_false, if_true]
    rcases hlb : apply_lookback (get_max_timestamp logs cursor) with e | c
      <;> rfl

/-- C3 witness: a concrete incremental items pass with one pulse entry
whose payload has no recognizable identifier key. -/
theorem C3_activity_without_ids_witness :
    read_items_cdc
      [⟨some "7", some "update_column_value", some "pulse",
        PyVal.obj [("value", PyVal.str "x")], "2024-01-01T00:02:30Z",
        PyVal.str "9"⟩]
      (fun _ => []) "2024-01-01T00:02:00Z" =
      Except.ok ([], ⟨some "2024-01-01T00:01:30Z"⟩) := by
  have h := C3_activity_without_ids.2
    [⟨some "7", some "update_column_value", some "pulse",
      PyVal.obj [("value", PyVal.str "x")], "2024-01-01T00:02:30Z",
      PyVal.str "9"⟩]
    (fun _ => []) "2024-01-01T00:02:00Z" rfl rfl
  rw [h]
  rfl

/-- C10: for the items table, whenever the board-ID list resolves empty
(no `board_ids` option and empty auto-discovery), the read returns an
empty record sequence and an EMPTY checkpoint mapping, discarding any
cursor the input checkpoint contained. -/
theorem C10_items_empty_boards :
    ∀ (env : ItemsEnv) (start_offset : Checkpoint) (opts : Options)
      (fuel : Nat) (n : Int),
      parse_page_size opts.page_size 100 = Except.ok n →
      (opts.board_ids = none ∨ opts.board_ids = some "") →
      env.discovered = [] →
      read_items env start_offset opts fuel = Except.ok ([], ⟨none⟩) := by
  intro env so opts fuel n hps hbo hdisc
  unfold read_items
  rw [hps]
  have hstr : opts.board_ids.getD "" = "" := by
    rcases hbo with h | h <;> rw [h] <;> rfl
  have hee : ("" : String).isEmpty = true := rfl
  simp [hstr, hdisc, hee]

/-- C10 witness: a concrete call with a cursor in the input checkpoint
and no resolvable boards. -/
theorem C10_items_empty_boards_witness :
    read_items
      ⟨[], fun _ => [], fun _ => ⟨none, []⟩, fun _ _ => [], fun _ => []⟩
      ⟨some "2024-01-01T00:00:00Z"⟩ ⟨none, none⟩ 3 =
      Except.ok ([], ⟨none⟩) :=
  C10_items_empty_boards
    ⟨[], fun _ => [], fun _ => ⟨none, []⟩, fun _ _ => [], fun _ => []⟩
    ⟨some "2024-01-01T00:00:00Z"⟩ ⟨none, none⟩ 3 100 rfl (Or.inl rfl) rfl

set_option maxRecDepth 40000 in
/-- C5 is a code bug: the claim (and the spec's ConversionError contract)
says the conversion never raises, but `int(t) / 10_000_000` raises an
uncaught `OverflowError` ("integer division result too large for a
float") for numeric strings around 10^316 and beyond -- the handler
catches only `ValueError`, `TypeError`, `OSError`.  This theorem
evaluates the code at the failing input 10^320, and checks the degrade
path for non-numeric input and the documented conversion of the spec's
17-digit example. -/
theorem C5_convert_overflow_bug :
    convert_activity_timestamp
      (String.mk ('1' :: List.replicate 320 '0')) = Except.error () ∧
    convert_activity_timestamp "not-a-number" =
      Except.ok "1970-01-01T00:00:00Z" ∧
    convert_activity_timestamp "1700000000000000" =
      Except.ok "1975-05-22T14:13:20Z" := by
  refine ⟨?_, rfl, ?_⟩
  · rfl
  · rfl

/-- C4 counterexample: "0001-01-01T00:00:30Z" is well-formed in the
`%Y-%m-%dT%H:%M:%SZ` format (strptime parses it), but `_apply_lookback`
does not return it minus 60 seconds -- the subtraction would precede
`datetime.min`, and the resulting `OverflowError` escapes the
`except (ValueError, TypeError)` handler instead of returning. -/
theorem C4_lookback_counterexample :
    pyStrptime "0001-01-01T00:00:30Z" = some ⟨1, 1, 1, 0, 0, 30⟩ ∧
    apply_lookback "0001-01-01T00:00:30Z" = Except.error () := ⟨rfl, rfl⟩

/-- C4 amended: for every string that strptime parses in the
`%Y-%m-%dT%H:%M:%SZ` format to a datetime at least 60 seconds after
0001-01-01T00:00:00, `_apply_lookback` returns the fixed-width rendering
of that datetime minus 60 seconds; for every string that does not parse
it returns the input unchanged; for parseable datetimes within 60
seconds of the minimum it raises `OverflowError`. -/
theorem C4_lookback_amended :
    (∀ (s : String) (t : DT), pyStrptime s = some t → 60 ≤ toSecs t →
       ∃ t2, subOneMinute t = some t2 ∧ toSecs t2 + 60 = toSecs t ∧
         t2.Valid ∧ apply_lookback s = Except.ok (formatDT t2)) ∧
    (∀ s : String, pyStrptime s = none →
       apply_lookback s = Except.ok s) ∧
    (∀ (s : String) (t : DT), pyStrptime s = some t → toSecs t < 60 →
       apply_lookback s = Except.error ()) := by
  refine ⟨?_, ?_, ?_⟩
  · intro s t hp hge
    have hv := pyStrptime_valid hp
    rcases hsub : subOneMinute t with _ | t2
    · rw [subOneMinute_none_iff hv] at hsub
      omega
    · exact ⟨t2, rfl, subOneMinute_toSecs hv hsub,
        subOneMinute_valid hv hsub,
        by rw [apply_lookback_parsed hp, hsub]⟩
  · intro s hp
    unfold apply_lookback
    rw [hp]
  · intro s t hp hlt
    have hv := pyStrptime_valid hp
    have hn : subOneMinute t = none := (subOneMinute_none_iff hv).mpr hlt
    rw [apply_lookback_parsed hp, hn]

/-- C4 witness: the amended claim at a concrete well-formed timestamp. -/
theorem C4_lookback_amended_witness :
    apply_lookback "2024-01-01T00:00:30Z" =
      Except.ok "2023-12-31T23:59:30Z" := by
  obtain ⟨t2, hs, _, _, hok⟩ := C4_lookback_amended.1
    "2024-01-01T00:00:30Z" ⟨2024, 1, 1, 0, 0, 30⟩ rfl (by decide)
  have he : subOneMinute ⟨2024, 1, 1, 0, 0, 30⟩ =
      some ⟨2023, 12, 31, 23, 59, 30⟩ := rfl
  rw [hs] at he
  cases Option.some.inj he
  exact hok

/-- C6: every page-based traversal (the loop shared by users,
workspaces and updates, and the boards-snapshot loop), for every
sequence of API responses that terminates it, requests consecutive page
numbers starting at 1, stops at the first batch that is empty or
strictly shorter than the requested page size, requests no page beyond
that batch's page, and yields exactly the requested batches' nodes. -/
theorem C6_page_traversal :
    (∀ (α : Type) (resp : Nat → List α) (pageSize : Int) (fuel : Nat),
       pagesTerm resp pageSize fuel 1 = true →
       isPageRun resp pageSize 1
         (pagedLoop resp pageSize fuel 1).2 = true ∧
       (pagedLoop resp pageSize fuel 1).1 =
         (pagedLoop resp pageSize fuel 1).2.flatMap resp) ∧
    (∀ (resp : Nat → List RawUser) (pageSize : Int) (fuel : Nat),
       read_users resp pageSize fuel =
         ((pagedLoop resp pageSize fuel 1).1.map transform_user,
          ⟨none⟩)) ∧
    (∀ (resp : Nat → List RawBoard) (pageSize : Int) (fuel : Nat),
       pagesTerm resp pageSize fuel 1 = true →
       isPageRun resp pageSize 1
         (boardsSnapshotLoop resp pageSize fuel 1 SENTINEL).2.2 = true ∧
       (boardsSnapshotLoop resp pageSize fuel 1 SENTINEL).1 =
         (boardsSnapshotLoop resp pageSize fuel 1 SENTINEL).2.2.flatMap
           (fun p => (resp p).map transform_board)) := by
  refine ⟨?_, ?_, ?_⟩
  · intro α resp pageSize fuel h
    exact pagedLoop_spec resp pageSize fuel 1 h
  · intro resp pageSize fuel
    rfl
  · intro resp pageSize fuel h
    obtain ⟨h1, h2, _⟩ := boardsSnapshotLoop_spec resp pageSize fuel 1
      SENTINEL h
    exact ⟨h1, h2⟩

/-- C6 witness: two pages of size 2 and 1 for page size 2. -/
theorem C6_page_traversal_witness :
    isPageRun (fun p => if p = 1 then ["a", "b"] else ["c"]) 2 1
      (pagedLoop (fun p => if p = 1 then ["a", "b"] else ["c"]) 2 3
        1).2 = true ∧
    (pagedLoop (fun p => if p = 1 then ["a", "b"] else ["c"]) 2 3 1).1 =
      (pagedLoop (fun p => if p = 1 then ["a", "b"] else ["c"]) 2 3
        1).2.flatMap (fun p => if p = 1 then ["a", "b"] else ["c"]) :=
  C6_page_traversal.1 String (fun p => if p = 1 then ["a", "b"]
    else ["c"]) 2 3 (by decide)

/-- C7 counterexample: the claim says the traversal stops only when the
token is null or absent; Python's `while cursor:` also stops on an
EMPTY-STRING token.  Here the initial response carries the non-null
token `""` and the follow-up page would contain an item, yet no
follow-up request is made and the traversal yields only the initial
batch. -/
theorem C7_token_counterexample :
    (ItemsPage.mk (some "")
      [⟨PyVal.int 1, none, none, none, none, PyVal.null, none, none, [],
        none⟩]).cursor ≠ none ∧
    read_items_for_board
      [⟨some "", [⟨PyVal.int 1, none, none, none, none, PyVal.null, none,
        none, [], none⟩]⟩]
      (fun _ => ⟨none, [⟨PyVal.int 2, none, none, none, none, PyVal.null,
        none, none, [], none⟩]⟩) 5 =
      ([transform_item ⟨PyVal.int 1, none, none, none, none, PyVal.null,
        none, none, [], none⟩], []) :=
  ⟨by simp, rfl⟩

/-- C7 amended: follow-up pages are requested exactly while the previous
response carried a truthy token -- non-null AND non-empty, since the
source loops with Python truthiness `while cursor:` -- the traversal
stops at the first falsy token regardless of batch size, and all nodes
of every fetched batch are yielded (transformed) in order. -/
theorem C7_token_traversal :
    (∀ (next : String → ItemsPage) (fuel : Nat) (t : Option String),
       tokenTerm next fuel t = true →
       isTokenChain next t (tokenLoop next fuel t).2 = true ∧
       (tokenLoop next fuel t).1 = (tokenLoop next fuel t).2.flatMap
         (fun r => (next r).items.map transform_item)) ∧
    (∀ (initResp : List ItemsPage) (next : String → ItemsPage)
       (fuel : Nat) (ip : ItemsPage), initResp.head? = some ip →
       read_items_for_board initResp next fuel =
         (ip.items.map transform_item ++
            (tokenLoop next fuel ip.cursor).1,
          (tokenLoop next fuel ip.cursor).2)) := by
  constructor
  · intro next fuel t h
    exact tokenLoop_spec next fuel t h
  · intro initResp next fuel ip hh
    unfold read_items_for_board
    rw [hh]

/-- C7 witness: two follow-up pages, the second returning no token. -/
theorem C7_token_traversal_witness :
    isTokenChain
      (fun tok => if tok = "t1" then ⟨some "t2", []⟩ else ⟨none, []⟩)
      (some "t1")
      (tokenLoop (fun tok => if tok = "t1" then ⟨some "t2", []⟩
        else ⟨none, []⟩) 3 (some "t1")).2 = true ∧
    (tokenLoop (fun tok => if tok = "t1" then ⟨some "t2", []⟩
      else ⟨none, []⟩) 3 (some "t1")).1 =
      (tokenLoop (fun tok => if tok = "t1" then ⟨some "t2", []⟩
        else ⟨none, []⟩) 3 (some "t1")).2.flatMap
        (fun r => ((fun tok => if tok = "t1" then
          (⟨some "t2", []⟩ : ItemsPage) else ⟨none, []⟩)
          r).items.map transform_item) :=
  C7_token_traversal.1
    (fun tok => if tok = "t1" then ⟨some "t2", []⟩ else ⟨none, []⟩) 3
    (some "t1") (by decide)

/-- The interleaved running maximum of the boards-snapshot loop equals
the fold over the records it returns (with or without termination). -/
theorem boardsSnapshotLoop_max (resp : Nat → List RawBoard)
    (pageSize : Int) :
    ∀ fuel page maxU,
      (boardsSnapshotLoop resp pageSize fuel page maxU).2.1 =
        boardsMaxUpd (boardsSnapshotLoop resp pageSize fuel page maxU).1
          maxU := by
  intro fuel
  induction fuel with
  | zero =>
    intro page maxU
    simp [boardsSnapshotLoop, boardsMaxUpd, maxTruthy]
  | succ fuel ih =>
    intro page maxU
    unfold boardsSnapshotLoop
    by_cases he : (resp page).isEmpty
    · simp [he, boardsMaxUpd, maxTruthy]
    · by_cases hs : ((resp page).length : Int) < pageSize
      · simp [he, hs]
      · simp only [he, hs, Bool.false_eq_true, if_false, if_neg hs]
        rw [boardsMaxUpd_append]
        simp [ih]

/-- C9: for every snapshot pass of boards or items that returns, the
checkpoint is the empty mapping exactly when no returned record's truthy
`updated_at` strictly exceeds the epoch sentinel (in particular for zero
records); otherwise the cursor is the lookback of the maximum observed
`updated_at`.  The final conjunct ties the running maximum to the
claim's wording: it stays at the sentinel iff no observed value strictly
exceeds it. -/
theorem C9_snapshot_checkpoint :
    (∀ (resp : Nat → List RawBoard) (pageSize : Int) (fuel : Nat)
       (recs : List BoardRec) (cp : Checkpoint),
       read_boards_snapshot resp pageSize fuel = Except.ok (recs, cp) →
       (boardsMaxUpd recs SENTINEL = SENTINEL → cp = ⟨none⟩) ∧
       (boardsMaxUpd recs SENTINEL ≠ SENTINEL →
         ∃ c, apply_lookback (boardsMaxUpd recs SENTINEL) =
             Except.ok c ∧ cp = ⟨some c⟩)) ∧
    (∀ (initOf : String → List ItemsPage) (next : String → ItemsPage)
       (board_ids : List String) (fuel : Nat) (recs : List ItemRec)
       (cp : Checkpoint),
       read_items_snapshot initOf next board_ids fuel =
         Except.ok (recs, cp) →
       (itemsMaxUpd recs SENTINEL = SENTINEL → cp = ⟨none⟩) ∧
       (itemsMaxUpd recs SENTINEL ≠ SENTINEL →
         ∃ c, apply_lookback (itemsMaxUpd recs SENTINEL) =
             Except.ok c ∧ cp = ⟨some c⟩)) ∧
    (∀ vals : List (Option String),
       maxTruthy vals SENTINEL = SENTINEL ↔
         ∀ s : String, some s ∈ vals → s = "" ∨
           pyStrGt s SENTINEL = false) := by
  refine ⟨?_, ?_, ?_⟩
  · intro resp pageSize fuel recs cp he
    unfold read_boards_snapshot at he
    have hmax := boardsSnapshotLoop_max resp pageSize fuel 1 SENTINEL
    by_cases hne :
        (boardsSnapshotLoop resp pageSize fuel 1 SENTINEL).2.1 = SENTINEL
    · rw [if_neg (by simp [hne])] at he
      cases he
      constructor
      · intro _
        rfl
      · intro hcontra
        rw [← hmax] at hcontra
        exact absurd hne hcontra
    · rw [if_pos (by simp [hne])] at he
      rcases hlb : apply_lookback
          (boardsSnapshotLoop resp pageSize fuel 1 SENTINEL).2.1
        with e | c
      · rw [hlb] at he
        cases he
      · rw [hlb] at he
        dsimp only at he
        have hcne : c ≠ "" :=
          apply_lookback_ok_nonempty
            (hmax ▸ maxTruthy_ne_empty (by decide)) hlb
        rw [if_neg (by simpa [String.isEmpty_iff] using hcne)] at he
        cases he
        constructor
        · intro hcontra
          rw [← hmax] at hcontra
          exact absurd hcontra hne
        · intro _
          exact ⟨c, by rw [← hmax]; exact hlb, rfl⟩
  · intro initOf next board_ids fuel recs cp he
    unfold read_items_snapshot at he
    by_cases hne : itemsMaxUpd (board_ids.flatMap
        (fun b => (read_items_for_board (initOf b) next fuel).1))
        SENTINEL = SENTINEL
    · rw [if_neg (by simp [hne])] at he
      cases he
      constructor
      · intro _
        rfl
      · intro hcontra
        exact absurd hne hcontra
    · rw [if_pos (by simp [hne])] at he
      rcases hlb : apply_lookback (itemsMaxUpd (board_ids.flatMap
          (fun b => (read_items_for_board (initOf b) next fuel).1))
          SENTINEL) with e | c
      · rw [hlb] at he
        cases he
      · rw [hlb] at he
        dsimp only at he
        have hcne : c ≠ "" :=
          apply_lookback_ok_nonempty
            (maxTruthy_ne_empty (by decide)) hlb
        rw [if_neg (by simpa [String.isEmpty_iff] using hcne)] at he
        cases he
        exact ⟨fun hcontra => absurd hcontra hne,
          fun _ => ⟨c, hlb, rfl⟩⟩
  · intro vals
    constructor
    · intro h s hm
      by_cases hse : s = ""
      · exact Or.inl hse
      · right
        cases hgt : pyStrGt s SENTINEL with
        | false => rfl
        | true =>
          have hge := @maxTruthy_ge _ SENTINEL _ hm hse
          rw [h] at hge
          simp only [pyStrLe, Bool.or_eq_true, beq_iff_eq] at hge
          rcases hge with hlt | heq
          · exact (pyCharsLt_not_both hlt hgt).elim
          · subst heq
            exact (pyCharsLt_not_both hgt hgt).elim
    · intro h
      rcases maxTruthy_cases vals SENTINEL with hc | ⟨s, hm, he, hne, hlt⟩
      · exact hc
      · rcases h s hm with h1 | h1
        · exact absurd h1 hne
        · have h2 : pyStrLt SENTINEL s = false := h1
          rw [hlt] at h2
          cases h2

/-- C9 witness: a one-page boards snapshot with a single record whose
`updated_at` exceeds the sentinel. -/
theorem C9_snapshot_checkpoint_witness :
    (boardsMaxUpd [transform_board ⟨PyVal.str "1", none, none, none,
        none, PyVal.null, none, some "2024-03-01T00:00:30Z", none,
        PyVal.null, none⟩] SENTINEL = SENTINEL →
      (⟨some "2024-02-29T23:59:30Z"⟩ : Checkpoint) = ⟨none⟩) ∧
    (boardsMaxUpd [transform_board ⟨PyVal.str "1", none, none, none,
        none, PyVal.null, none, some "2024-03-01T00:00:30Z", none,
        PyVal.null, none⟩] SENTINEL ≠ SENTINEL →
      ∃ c, apply_lookback (boardsMaxUpd [transform_board ⟨PyVal.str "1",
          none, none, none, none, PyVal.null, none,
          some "2024-03-01T00:00:30Z", none, PyVal.null, none⟩]
          SENTINEL) = Except.ok c ∧
        (⟨some "2024-02-29T23:59:30Z"⟩ : Checkpoint) = ⟨some c⟩) :=
  C9_snapshot_checkpoint.1
    (fun p => if p = 1 then [⟨PyVal.str "1", none, none, none, none,
      PyVal.null, none, some "2024-03-01T00:00:30Z", none, PyVal.null,
      none⟩] else []) 50 2
    [transform_board ⟨PyVal.str "1", none, none, none, none, PyVal.null,
      none, some "2024-03-01T00:00:30Z", none, PyVal.null, none⟩]
    ⟨some "2024-02-29T23:59:30Z"⟩ rfl


theorem setAdd_mem (xs : List String) (x : String) : x ∈ setAdd xs x := by
  unfold setAdd
  split_ifs with h
  · exact List.elem_iff.mp h
  · exact List.mem_append.mpr (Or.inr (List.mem_singleton.mpr rfl))

theorem setAdd_contains_self (xs : List String) (x : String) :
    (setAdd xs x).contains x = true :=
  List.elem_iff.mpr (setAdd_mem xs x)

theorem setAdd_idem (xs : List String) (x : String) :
    setAdd (setAdd xs x) x = setAdd xs x := by
  show (if (setAdd xs x).contains x then setAdd xs x
    else setAdd xs x ++ [x]) = setAdd xs x
  rw [if_pos (setAdd_contains_self xs x)]

theorem setAdd_nodup {xs : List String} (h : xs.Nodup) (x : String) :
    (setAdd xs x).Nodup := by
  unfold setAdd
  split_ifs with hc
  · exact h
  · rw [List.nodup_append]
    refine ⟨h, List.nodup_singleton x, ?_⟩
    intro a ha hax
    rcases List.mem_singleton.mp hax with rfl
    exact hc (List.elem_iff.mpr ha)

theorem pyGetItem_obj {d : List (String × PyVal)} {k : String}
    (h : d.any (fun kv => kv.1 == k) = true) :
    pyGetItem (PyVal.obj d) k = Except.ok (dictGet d k) := by
  rcases hl : (d.filter (fun kv => kv.1 == k)).getLast? with _ | kv
  · exfalso
    rw [List.getLast?_eq_none_iff] at hl
    obtain ⟨x, hx, hxk⟩ := List.any_eq_true.mp h
    have hm : x ∈ d.filter (fun kv => kv.1 == k) :=
      List.mem_filter.mpr ⟨hx, hxk⟩
    rw [hl] at hm
    cases hm
  · show (match (d.filter (fun kv => kv.1 == k)).getLast? with
        | some kv => (Except.ok kv.2 : Except Unit PyVal)
        | none => Except.error ()) =
      Except.ok (match (d.filter (fun kv => kv.1 == k)).getLast? with
        | some kv => kv.2
        | none => PyVal.null)
    rw [hl]

theorem filter_keys_cons (d : List (String × PyVal)) (k : String)
    (ks : List String) :
    (k :: ks).filter (fun k2 => d.any (fun kv => kv.1 == k2)) =
      if d.any (fun kv => kv.1 == k) then
        k :: ks.filter (fun k2 => d.any (fun kv => kv.1 == k2))
      else ks.filter (fun k2 => d.any (fun kv => kv.1 == k2)) :=
  List.filter_cons

theorem prioGo_obj (d : List (String × PyVal)) (acc : List String) :
    ∀ keys, prioGo (PyVal.obj d) acc keys =
      (match keys.filter (fun k => d.any (fun kv => kv.1 == k)) with
       | [] => (acc, false)
       | k :: _ => (setAdd acc (pyStr (dictGet d k)), false)) := by
  intro keys
  induction keys with
  | nil => rfl
  | cons k ks ih =>
    unfold prioGo
    rw [filter_keys_cons]
    by_cases hk : d.any (fun kv => kv.1 == k) = true
    · rw [if_pos hk]
      have hc : pyContains (PyVal.obj d) k =
          Except.ok (d.any (fun kv => kv.1 == k)) := rfl
      rw [hc, hk, pyGetItem_obj hk]
    · have hk2 : d.any (fun kv => kv.1 == k) = false :=
        Bool.eq_false_iff.mpr hk
      rw [if_neg hk]
      have hc : pyContains (PyVal.obj d) k =
          Except.ok (d.any (fun kv => kv.1 == k)) := rfl
      rw [hc, hk2]
      exact ih

theorem combinedStep_obj_no_pulse {d : List (String × PyVal)}
    (hp : d.any (fun kv => kv.1 == "pulse_id") = false)
    (acc : List String) :
    combinedStep (PyVal.obj d) acc = (acc, false) := by
  unfold combinedStep
  have hc : pyContains (PyVal.obj d) "board_id" =
      Except.ok (d.any (fun kv => kv.1 == "board_id")) := rfl
  have hc2 : pyContains (PyVal.obj d) "pulse_id" =
      Except.ok (d.any (fun kv => kv.1 == "pulse_id")) := rfl
  rw [hc, hc2, hp]
  rcases d.any (fun kv => kv.1 == "board_id") with _ | _
  · rfl
  · rfl

theorem combinedStep_obj_no_board {d : List (String × PyVal)}
    (hb : d.any (fun kv => kv.1 == "board_id") = false)
    (acc : List String) :
    combinedStep (PyVal.obj d) acc = (acc, false) := by
  unfold combinedStep
  have hc : pyContains (PyVal.obj d) "board_id" =
      Except.ok (d.any (fun kv => kv.1 == "board_id")) := rfl
  rw [hc, hb]

theorem combinedStep_obj_both {d : List (String × PyVal)}
    (hb : d.any (fun kv => kv.1 == "board_id") = true)
    (hp : d.any (fun kv => kv.1 == "pulse_id") = true)
    (acc : List String) :
    combinedStep (PyVal.obj d) acc =
      (setAdd acc (pyStr (dictGet d "pulse_id")), false) := by
  unfold combinedStep
  have hc : pyContains (PyVal.obj d) "board_id" =
      Except.ok (d.any (fun kv => kv.1 == "board_id")) := rfl
  have hc2 : pyContains (PyVal.obj d) "pulse_id" =
      Except.ok (d.any (fun kv => kv.1 == "pulse_id")) := rfl
  rw [hc, hc2, hb, hp, pyGetItem_obj hp]

theorem processEntry_obj {log : LogEntry} {d : List (String × PyVal)}
    (he : log.entity = some "pulse") (hd : log.data = PyVal.obj d)
    (hne : d ≠ []) (acc : List String) :
    processEntry acc log =
      (match PRIORITY_KEYS.filter (fun k => d.any (fun kv => kv.1 == k))
        with
       | [] => acc
       | k :: _ => setAdd acc (pyStr (dictGet d k))) := by
  have ht : pyTruthy (PyVal.obj d) = true := by
    rcases d with _ | ⟨kv, d2⟩
    · exact absurd rfl hne
    · rfl
  unfold processEntry
  rw [he, hd, ht]
  simp only [bne_self_eq_false, Bool.false_eq_true, if_false,
    Bool.not_true, prioGo_obj]
  rcases hfil : PRIORITY_KEYS.filter
      (fun k => d.any (fun kv => kv.1 == k)) with _ | ⟨k, ks⟩
  · dsimp only
    have h1 := List.filter_eq_nil_iff.mp hfil "pulse_id"
      (by simp [PRIORITY_KEYS])
    have hp : d.any (fun kv => kv.1 == "pulse_id") = false :=
      Bool.eq_false_iff.mpr h1
    simp [combinedStep_obj_no_pulse hp]
  · dsimp only
    by_cases hp : d.any (fun kv => kv.1 == "pulse_id") = true
    · have hfe : PRIORITY_KEYS.filter
          (fun k2 => d.any (fun kv => kv.1 == k2)) =
          "pulse_id" :: (["item_id", "id", "pulseId", "itemId"].filter
            (fun k2 => d.any (fun kv => kv.1 == k2))) := by
        rw [show PRIORITY_KEYS = "pulse_id" :: ["item_id", "id",
          "pulseId", "itemId"] from rfl, filter_keys_cons, if_pos hp]
      rw [hfe] at hfil
      injection hfil with h1 h2
      subst h1
      by_cases hb : d.any (fun kv => kv.1 == "board_id") = true
      · simp [combinedStep_obj_both hb hp, setAdd_idem]
      · have hb2 : d.any (fun kv => kv.1 == "board_id") = false :=
          Bool.eq_false_iff.mpr hb
        simp [combinedStep_obj_no_board hb2]
    · have hp2 : d.any (fun kv => kv.1 == "pulse_id") = false :=
        Bool.eq_false_iff.mpr hp
      simp [combinedStep_obj_no_pulse hp2]

theorem processEntry_nonpulse {acc : List String} {log : LogEntry}
    (h : (log.entity == some "pulse") = false) :
    processEntry acc log = acc := by
  unfold processEntry
  simp [bne, h]

theorem processEntry_parse_fail {acc : List String} {log : LogEntry}
    {s : String} (hd : log.data = PyVal.str s)
    (hl : json_loads s = none) : processEntry acc log = acc := by
  unfold processEntry
  rw [hd]
  split_ifs with h1 h2
  · rfl
  · rfl
  · show (match json_loads s with
      | none => acc
      | some data =>
        let r := prioGo data acc PRIORITY_KEYS
        if r.2 then r.1 else (combinedStep data r.1).1) = acc
    rw [hl]

theorem prioGo_nodup (data : PyVal) :
    ∀ (keys : List String) {acc : List String}, acc.Nodup →
      ((prioGo data acc keys).1).Nodup := by
  intro keys
  induction keys with
  | nil =>
    intro acc h
    exact h
  | cons k ks ih =>
    intro acc h
    unfold prioGo
    rcases pyContains data k with _ | b
    · exact h
    · rcases b with _ | _
      · exact ih h
      · rcases pyGetItem data k with _ | v
        · exact h
        · exact setAdd_nodup h _

theorem combinedStep_nodup (data : PyVal) {acc : List String}
    (h : acc.Nodup) : ((combinedStep data acc).1).Nodup := by
  unfold combinedStep
  rcases pyContains data "board_id" with _ | b
  · exact h
  · rcases b with _ | _
    · exact h
    · rcases pyContains data "pulse_id" with _ | b2
      · exact h
      · rcases b2 with _ | _
        · exact h
        · rcases pyGetItem data "pulse_id" with _ | v
          · exact h
          · exact setAdd_nodup h _

theorem entryTail_nodup (o : Option PyVal) {acc : List String}
    (h : acc.Nodup) :
    (match o with
     | none => acc
     | some data =>
       let r := prioGo data acc PRIORITY_KEYS
       if r.2 then r.1 else (combinedStep data r.1).1).Nodup := by
  rcases o with _ | data
  · exact h
  · show (if (prioGo data acc PRIORITY_KEYS).2 = true
        then (prioGo data acc PRIORITY_KEYS).1
        else (combinedStep data
          (prioGo data acc PRIORITY_KEYS).1).1).Nodup
    by_cases hr : (prioGo data acc PRIORITY_KEYS).2 = true
    · rw [if_pos hr]
      exact prioGo_nodup data PRIORITY_KEYS h
    · rw [if_neg hr]
      exact combinedStep_nodup data (prioGo_nodup data PRIORITY_KEYS h)

theorem processEntry_nodup (log : LogEntry) {acc : List String}
    (h : acc.Nodup) : (processEntry acc log).Nodup := by
  unfold processEntry
  by_cases h1 : (log.entity != some "pulse") = true
  · rw [if_pos h1]
    exact h
  · rw [if_neg h1]
    by_cases h2 : (!pyTruthy log.data) = true
    · rw [if_pos h2]
      exact h
    · rw [if_neg h2]
      exact entryTail_nodup _ h

theorem extract_foldl_nodup :
    ∀ (logs : List LogEntry) {acc : List String}, acc.Nodup →
      (logs.foldl processEntry acc).Nodup := by
  intro logs
  induction logs with
  | nil =>
    intro acc h
    exact h
  | cons l ls ih =>
    intro acc h
    exact ih (processEntry_nodup l h)

theorem filter_pulse_cons (l : LogEntry) (ls : List LogEntry) :
    (l :: ls).filter (fun l2 => l2.entity == some "pulse") =
      if l.entity == some "pulse" then
        l :: ls.filter (fun l2 => l2.entity == some "pulse")
      else ls.filter (fun l2 => l2.entity == some "pulse") :=
  List.filter_cons

theorem extract_foldl_filter :
    ∀ (logs : List LogEntry) (acc : List String),
      logs.foldl processEntry acc =
        (logs.filter (fun l => l.entity == some "pulse")).foldl
          processEntry acc := by
  intro logs
  induction logs with
  | nil =>
    intro acc
    rfl
  | cons l ls ih =>
    intro acc
    rw [List.foldl_cons, filter_pulse_cons]
    by_cases hl : (l.entity == some "pulse") = true
    · rw [if_pos hl, List.foldl_cons]
      exact ih (processEntry acc l)
    · have hl2 : (l.entity == some "pulse") = false :=
        Bool.eq_false_iff.mpr hl
      rw [if_neg hl, processEntry_nonpulse hl2]
      exact ih acc

/-- C8: the item-identifier extractor searches each parsed pulse payload
with the fixed key priority `pulse_id, item_id, id, pulseId, itemId` and
takes the first match (conjunct 5, phrased via the head of the
priority-order filter); the spec gives two concrete payload shapes,
which yield "55" and "77" (conjuncts 1-2); entries of a different kind
contribute nothing (conjunct 3); entries whose payload fails to parse
contribute nothing (conjunct 4, within the modelled JSON fragment); and
the result is a set of distinct identifiers (conjunct 6). -/
theorem C8_item_id_extraction :
    (extract_item_ids_from_logs
       [⟨some "1", some "update_column_value", some "pulse",
         PyVal.str "\x7b\"pulse_id\": \"55\", \"board_id\": \"9\"\x7d",
         "2024-01-01T00:00:00Z", PyVal.str "9"⟩] = ["55"]) ∧
    (extract_item_ids_from_logs
       [⟨some "1", some "update_column_value", some "pulse",
         PyVal.str "\x7b\"itemId\": \"77\"\x7d",
         "2024-01-01T00:00:00Z", PyVal.str "9"⟩] = ["77"]) ∧
    (∀ logs, extract_item_ids_from_logs logs =
       extract_item_ids_from_logs
         (logs.filter (fun l => l.entity == some "pulse"))) ∧
    (∀ (acc : List String) (log : LogEntry) (s : String),
       log.data = PyVal.str s → json_loads s = none →
       processEntry acc log = acc) ∧
    (∀ (acc : List String) (log : LogEntry)
       (d : List (String × PyVal)), log.entity = some "pulse" →
       log.data = PyVal.obj d → d ≠ [] →
       processEntry acc log =
         (match PRIORITY_KEYS.filter
             (fun k => d.any (fun kv => kv.1 == k)) with
          | [] => acc
          | k :: _ => setAdd acc (pyStr (dictGet d k)))) ∧
    (∀ logs, (extract_item_ids_from_logs logs).Nodup) := by
  refine ⟨rfl, rfl, ?_, ?_, ?_, ?_⟩
  · intro logs
    exact extract_foldl_filter logs []
  · intro acc log s hd hl
    exact processEntry_parse_fail hd hl
  · intro acc log d he hd hne
    exact processEntry_obj he hd hne acc
  · intro logs
    exact extract_foldl_nodup logs List.nodup_nil

/-- C8 witness: the priority conjunct at a payload containing `item_id`
and `id` but no `pulse_id` -- the first priority hit wins. -/
theorem C8_item_id_extraction_witness :
    processEntry []
      ⟨some "1", some "update_column_value", some "pulse",
        PyVal.obj [("item_id", PyVal.str "88"), ("id", PyVal.str "99")],
        "2024-01-01T00:00:00Z", PyVal.str "9"⟩ = ["88"] := by
  have h := C8_item_id_extraction.2.2.2.2.1 []
    ⟨some "1", some "update_column_value", some "pulse",
      PyVal.obj [("item_id", PyVal.str "88"), ("id", PyVal.str "99")],
      "2024-01-01T00:00:00Z", PyVal.str "9"⟩
    [("item_id", PyVal.str "88"), ("id", PyVal.str "99")] rfl rfl
    (by simp)
  rw [h]
  rfl

/-- C1 counterexample: an incremental items pass starting from cursor
2024-01-01T00:01:00Z, over one pulse change-log entry carrying no
extractable identifier and created at that same instant, returns the
checkpoint cursor 2024-01-01T00:00:00Z -- strictly below the input
cursor under Python string comparison.  The lookback makes the
checkpoint regress; it does not advance monotonically. -/
theorem C1_monotonic_counterexample :
    read_items_cdc
      [⟨some "7", some "update_column_value", some "pulse", PyVal.null,
        "2024-01-01T00:01:00Z", PyVal.str "9"⟩]
      (fun _ => []) "2024-01-01T00:01:00Z" =
      Except.ok ([], ⟨some "2024-01-01T00:00:00Z"⟩) ∧
    pyStrLt "2024-01-01T00:00:00Z" "2024-01-01T00:01:00Z" = true :=
  ⟨rfl, rfl⟩

/-- C1 (amended): the returned cursor never regresses by more than the
60-second lookback.  For every incremental boards or items pass from a
canonical cursor, when the change-log `created_at` values are canonical
and the fetched records carry canonical-or-absent `updated_at` values,
any returned checkpoint cursor is at least `_apply_lookback` of the
input cursor. -/
theorem C1_checkpoint_amended :
    (∀ (discovered : List String) (logs : List LogEntry)
       (fetchedFor : List String → List BoardRec) (cursor : String),
       isCanonTs cursor = true →
       (∀ log ∈ logs, isCanonTs log.created_at = true) →
       (∀ (ids : List String), ∀ r ∈ fetchedFor ids,
         r.updated_at = none ∨ r.updated_at = some "" ∨
           ∃ s, r.updated_at = some s ∧ isCanonTs s = true) →
       ∀ (recs : List BoardRec) (c0 : String),
         read_boards_cdc discovered logs fetchedFor cursor =
           Except.ok (recs, ⟨some c0⟩) →
         ∀ u, apply_lookback cursor = Except.ok u →
           pyStrLe u c0 = true) ∧
    (∀ (logs : List LogEntry)
       (fetchedFor : List String → List ItemRec) (cursor : String),
       isCanonTs cursor = true →
       (∀ log ∈ logs, isCanonTs log.created_at = true) →
       (∀ (ids : List String), ∀ r ∈ fetchedFor ids,
         r.updated_at = none ∨ r.updated_at = some "" ∨
           ∃ s, r.updated_at = some s ∧ isCanonTs s = true) →
       ∀ (recs : List ItemRec) (c0 : String),
         read_items_cdc logs fetchedFor cursor =
           Except.ok (recs, ⟨some c0⟩) →
         ∀ u, apply_lookback cursor = Except.ok u →
           pyStrLe u c0 = true) := by
  constructor
  · intro discovered logs fetchedFor cursor hcur hlogs hfetch recs c0
      hread u hu
    have hmaxc : isCanonTs (get_max_timestamp logs cursor) = true := by
      unfold get_max_timestamp
      apply maxTruthy_canon hcur
      intro v hv
      obtain ⟨log, hlog, he⟩ := List.mem_map.mp hv
      exact Or.inr (Or.inr ⟨log.created_at, he.symm, hlogs log hlog⟩)
    have hle : pyStrLe cursor (get_max_timestamp logs cursor) = true :=
      maxTruthy_le _ _
    unfold read_boards_cdc at hread
    by_cases hd : discovered.isEmpty = true
    · rw [if_pos hd] at hread
      simp only [Except.ok.injEq, Prod.mk.injEq, Checkpoint.mk.injEq,
        Option.some.injEq] at hread
      rw [← hread.2]
      exact apply_lookback_le_self hcur hu
    · have hdf : discovered.isEmpty = false := Bool.eq_false_iff.mpr hd
      by_cases hl : logs.isEmpty = true
      · simp only [hdf, Bool.false_eq_true, if_false, hl,
          if_true] at hread
        simp only [Except.ok.injEq, Prod.mk.injEq, Checkpoint.mk.injEq,
          Option.some.injEq] at hread
        rw [← hread.2]
        exact apply_lookback_le_self hcur hu
      · have hlf : logs.isEmpty = false := Bool.eq_false_iff.mpr hl
        by_cases hi : (extract_board_ids_from_logs logs).isEmpty = true
        · simp only [hdf, hlf, Bool.false_eq_true, if_false, hi,
            if_true] at hread
          rcases hc : apply_lookback (get_max_timestamp logs cursor)
              with e | c
          · rw [hc] at hread
            cases hread
          · rw [hc] at hread
            simp only [Except.ok.injEq, Prod.mk.injEq,
              Checkpoint.mk.injEq, Option.some.injEq] at hread
            rw [← hread.2]
            exact apply_lookback_mono hcur hmaxc hle hu hc
        · have hif : (extract_board_ids_from_logs logs).isEmpty =
              false := Bool.eq_false_iff.mpr hi
          simp only [hdf, hlf, hif, Bool.false_eq_true,
            if_false] at hread
          have hmxc : isCanonTs
              (boardsMaxUpd (fetchedFor (extract_board_ids_from_logs
                logs)) (get_max_timestamp logs cursor)) = true := by
            unfold boardsMaxUpd
            apply maxTruthy_canon hmaxc
            intro v hv
            obtain ⟨r, hr, he⟩ := List.mem_map.mp hv
            rcases hfetch _ r hr with h | h | ⟨s, hs, hcs⟩
            · exact Or.inl (he ▸ h)
            · exact Or.inr (Or.inl (he ▸ h))
            · exact Or.inr (Or.inr ⟨s, he ▸ hs, hcs⟩)
          have hle2 : pyStrLe (get_max_timestamp logs cursor)
              (boardsMaxUpd (fetchedFor (extract_board_ids_from_logs
                logs)) (get_max_timestamp logs cursor)) = true :=
            maxTruthy_le _ _
          rcases hc : apply_lookback
              (boardsMaxUpd (fetchedFor (extract_board_ids_from_logs
                logs)) (get_max_timestamp logs cursor)) with e | c
          · rw [hc] at hread
            cases hread
          · rw [hc] at hread
            simp only [Except.ok.injEq, Prod.mk.injEq,
              Checkpoint.mk.injEq, Option.some.injEq] at hread
            rw [← hread.2]
            exact apply_lookback_mono hcur hmxc
              (pyStrLe_trans hle hle2) hu hc
  · intro logs fetchedFor cursor hcur hlogs hfetch recs c0 hread u hu
    have hmaxc : isCanonTs (get_max_timestamp logs cursor) = true := by
      unfold get_max_timestamp
      apply maxTruthy_canon hcur
      intro v hv
      obtain ⟨log, hlog, he⟩ := List.mem_map.mp hv
      exact Or.inr (Or.inr ⟨log.created_at, he.symm, hlogs log hlog⟩)
    have hle : pyStrLe cursor (get_max_timestamp logs cursor) = true :=
      maxTruthy_le _ _
    unfold read_items_cdc at hread
    by_cases hl : logs.isEmpty = true
    · rw [if_pos hl] at hread
      simp only [Except.ok.injEq, Prod.mk.injEq, Checkpoint.mk.injEq,
        Option.some.injEq] at hread
      rw [← hread.2]
      exact apply_lookback_le_self hcur hu
    · have hlf : logs.isEmpty = false := Bool.eq_false_iff.mpr hl
      by_cases hi : (extract_item_ids_from_logs logs).isEmpty = true
      · simp only [hlf, Bool.false_eq_true, if_false, hi,
          if_true] at hread
        rcases hc : apply_lookback (get_max_timestamp logs cursor)
            with e | c
        · rw [hc] at hread
          cases hread
        · rw [hc] at hread
          simp only [Except.ok.injEq, Prod.mk.injEq,
            Checkpoint.mk.injEq, Option.some.injEq] at hread
          rw [← hread.2]
          exact apply_lookback_mono hcur hmaxc hle hu hc
      · have hif : (extract_item_ids_from_logs logs).isEmpty = false :=
          Bool.eq_false_iff.mpr hi
        simp only [hlf, hif, Bool.false_eq_true, if_false] at hread
        have hmxc : isCanonTs
            (itemsMaxUpd (fetchedFor (extract_item_ids_from_logs logs))
              (get_max_timestamp logs cursor)) = true := by
          unfold itemsMaxUpd
          apply maxTruthy_canon hmaxc
          intro v hv
          obtain ⟨r, hr, he⟩ := List.mem_map.mp hv
          rcases hfetch _ r hr with h | h | ⟨s, hs, hcs⟩
          · exact Or.inl (he ▸ h)
          · exact Or.inr (Or.inl (he ▸ h))
          · exact Or.inr (Or.inr ⟨s, he ▸ hs, hcs⟩)
        have hle2 : pyStrLe (get_max_timestamp logs cursor)
            (itemsMaxUpd (fetchedFor (extract_item_ids_from_logs logs))
              (get_max_timestamp logs cursor)) = true :=
          maxTruthy_le _ _
        rcases hc : apply_lookback
            (itemsMaxUpd (fetchedFor (extract_item_ids_from_logs logs))
              (get_max_timestamp logs cursor)) with e | c
        · rw [hc] at hread
          cases hread
        · rw [hc] at hread
          simp only [Except.ok.injEq, Prod.mk.injEq,
            Checkpoint.mk.injEq, Option.some.injEq] at hread
          rw [← hread.2]
          exact apply_lookback_mono hcur hmxc
            (pyStrLe_trans hle hle2) hu hc

/-- C1 witness: the amended bound at a concrete items pass -- from
cursor 2024-01-01T00:01:00Z with no change-log entries, the pass keeps
the cursor, and the lookback of the input cursor sits below it. -/
theorem C1_checkpoint_amended_witness :
    pyStrLe "2024-01-01T00:00:00Z" "2024-01-01T00:01:00Z" = true :=
  C1_checkpoint_amended.2 [] (fun _ => []) "2024-01-01T00:01:00Z"
    rfl (by intro log h; cases h) (by intro ids r h; cases h)
    [] "2024-01-01T00:01:00Z" rfl "2024-01-01T00:00:00Z" rfl

end Monday
